import Mathlib

/-!
Verification of the kube-rightsizer recommendation engine.

Shallow embedding of `src/main.py` of the `kube-rightsizer` repository.

Modelling conventions:

* Python floats are modelled by exact rationals (`ℚ`).  All arithmetic in the
  program (unit conversion, means, percentiles, buffering) is modelled exactly;
  IEEE-754 rounding of intermediate results is idealized away.
* Python strings are modelled by Lean `String`, manipulated as `List Char`.
  Whitespace stripping covers the ASCII whitespace characters.
* Python's built-in `float(str)` conversion is modelled on its finite decimal
  fragment (optional sign, decimal digits with optional fraction and exponent);
  the special literals `inf`/`nan` and underscore digit separators are not
  modelled (no Kubernetes resource-quantity string uses them).  A failing
  conversion (Python `ValueError`) is modelled by `Option.none`.
* Code that can raise an uncaught `ValueError` / `IndexError` is modelled in
  `Except Unit`, where `Except.error ()` stands for the raised exception.
* The run is modelled with `USE_COLORS = false` (output not attached to an
  interactive terminal), so ANSI colouring is the identity on cell data, as in
  the source's non-tty path.
-/

namespace KubeRightsizer

instance {ε α : Type} [DecidableEq ε] [DecidableEq α] : DecidableEq (Except ε α) :=
  fun a b =>
    match a, b with
    | .ok x, .ok y => if h : x = y then .isTrue (by rw [h]) else .isFalse (by simp [h])
    | .error x, .error y => if h : x = y then .isTrue (by rw [h]) else .isFalse (by simp [h])
    | .ok _, .error _ => .isFalse (by simp)
    | .error _, .ok _ => .isFalse (by simp)

/-- ASCII whitespace characters removed by Python `str.strip()`. -/
def isPySpace (c : Char) : Bool :=
  c = ' ' || c = '\t' || c = '\n' || c = '\x0d' || c = '\x0b' || c = '\x0c'

/-- Python `str.strip()` on a character list: drop whitespace at both ends. -/
def pyStrip (l : List Char) : List Char :=
  ((l.dropWhile isPySpace).reverse.dropWhile isPySpace).reverse

/-- Numeric value of a decimal digit character. -/
def digitVal (c : Char) : ℕ := c.toNat - 48

/-- Value of a most-significant-first list of decimal digit characters. -/
def digitsVal (l : List Char) : ℕ := l.foldl (fun a c => 10 * a + digitVal c) 0

/-- The decimal digit character for `d < 10`. -/
def digitChar (d : ℕ) : Char := Char.ofNat (48 + d)

/-- Decimal digits of `n`, most significant first (empty for `n = 0`);
the first argument is structural fuel (`n` itself is always enough). -/
def natStrAux : ℕ → ℕ → List Char
  | 0, _ => []
  | _ + 1, 0 => []
  | fuel + 1, n + 1 => natStrAux fuel ((n + 1) / 10) ++ [digitChar ((n + 1) % 10)]

/-- Decimal rendering of a natural number, as produced by a Python f-string. -/
def natStr (n : ℕ) : String := if n = 0 then "0" else ⟨natStrAux n n⟩

/-- Decimal rendering of an integer, as produced by a Python f-string. -/
def intStr (i : ℤ) : String := if i < 0 then "-" ++ natStr i.natAbs else natStr i.toNat

/-- Python `int(x)` for a real (here rational) argument: truncation toward zero. -/
def pyInt (q : ℚ) : ℤ := if 0 ≤ q then ⌊q⌋ else ⌈q⌉

/-- Python `float(str)` conversion on an already unsigned, stripped character
list: `digits [. digits] [e|E [sign] digits]` with at least one mantissa
digit.  Returns `none` where CPython raises `ValueError`. -/
def pyFloatUnsigned (cs : List Char) : Option ℚ :=
  let ip := cs.takeWhile Char.isDigit
  let rest := cs.dropWhile Char.isDigit
  let fp := match rest with
    | '.' :: r => r.takeWhile Char.isDigit
    | _ => []
  let rest2 := match rest with
    | '.' :: r => r.dropWhile Char.isDigit
    | _ => rest
  if ip.isEmpty && fp.isEmpty then none
  else
    let mant : ℚ := (digitsVal ip : ℚ) + (digitsVal fp : ℚ) / (10 : ℚ) ^ fp.length
    match rest2 with
    | [] => some mant
    | 'e' :: r => pyFloatExp mant r
    | 'E' :: r => pyFloatExp mant r
    | _ => none
where
  /-- Exponent part: `[sign] digits`, nothing may follow. -/
  pyFloatExp (mant : ℚ) (r : List Char) : Option ℚ :=
    let esign : ℤ := match r with
      | '-' :: _ => -1
      | _ => 1
    let r1 := match r with
      | '+' :: t => t
      | '-' :: t => t
      | _ => r
    let ed := r1.takeWhile Char.isDigit
    let r2 := r1.dropWhile Char.isDigit
    if ed.isEmpty || !r2.isEmpty then none
    else some (mant * (10 : ℚ) ^ (esign * (digitsVal ed : ℤ)))

/-- Python `float(str)`: strip whitespace, optional sign, unsigned literal.
`none` models a raised `ValueError`. -/
def pyFloat (cs : List Char) : Option ℚ :=
  match pyStrip cs with
  | [] => pyFloatUnsigned []
  | c :: r =>
      if c = '+' then pyFloatUnsigned r
      else if c = '-' then (pyFloatUnsigned r).map (fun q => -q)
      else pyFloatUnsigned (c :: r)

/-- `float(value)` where the result must not raise: `Except.error ()` models a
`ValueError` escaping the enclosing code. -/
def tryFloat (cs : List Char) : Except Unit ℚ :=
  match pyFloat cs with
  | some q => .ok q
  | none => .error ()

/-- Core of `parse_resource_value` on the stripped value: suffix dispatch in
source order (`m`, `n`, `Mi`, `Gi`, `M`, `G`), with the bare-float fallback
wrapped in `try/except ValueError` (which is why only the fallback is total). -/
def parseStripped (v : List Char) : Except Unit ℚ :=
  match v.reverse with
  | [] => .ok ((pyFloat v).getD 0)
  | c :: r =>
      if c = 'm' then (tryFloat r.reverse).map (fun q => q / 1000)
      else if c = 'n' then (tryFloat r.reverse).map (fun q => q / 1000000000)
      else if c = 'i' then
        match r with
        | [] => .ok ((pyFloat v).getD 0)
        | c2 :: r2 =>
            if c2 = 'M' then (tryFloat r2.reverse).map (fun q => q * (1024 * 1024))
            else if c2 = 'G' then (tryFloat r2.reverse).map (fun q => q * (1024 * 1024 * 1024))
            else .ok ((pyFloat v).getD 0)
      else if c = 'M' then (tryFloat r.reverse).map (fun q => q * (1000 * 1000))
      else if c = 'G' then (tryFloat r.reverse).map (fun q => q * (1000 * 1000 * 1000))
      else .ok ((pyFloat v).getD 0)

/-- Whether a stripped value ends in one of the six recognized unit suffixes
(`m`, `n`, `Mi`, `Gi`, `M`, `G`). -/
def recognizedSuffix (v : List Char) : Bool :=
  match v.reverse with
  | [] => false
  | c :: r =>
      if c = 'm' then true
      else if c = 'n' then true
      else if c = 'i' then
        match r with
        | [] => false
        | c2 :: _ => c2 = 'M' || c2 = 'G'
      else c = 'M' || c = 'G'

/-- Whether the stripped value ends in a recognized unit suffix whose numeric
operand does not convert with Python `float` — exactly the inputs on which
`parse_resource_value` raises an uncaught `ValueError`. -/
def badSuffixOperand (s : String) : Bool :=
  if s = "N/A" ∨ s = "" then false
  else
    match (pyStrip s.data).reverse with
    | [] => false
    | c :: r =>
        if c = 'm' then (pyFloat r.reverse).isNone
        else if c = 'n' then (pyFloat r.reverse).isNone
        else if c = 'i' then
          match r with
          | [] => false
          | c2 :: r2 =>
              if c2 = 'M' || c2 = 'G' then (pyFloat r2.reverse).isNone else false
        else if c = 'M' || c = 'G' then (pyFloat r.reverse).isNone
        else false

/-- `parse_resource_value` (src/main.py:223-249): `"N/A"` and the empty string
short-circuit to `0.0` before stripping; then suffix conversion on the
stripped string.  `Except.error ()` models an uncaught `ValueError` raised by
`float(...)` inside one of the suffix branches. -/
def parse_resource_value (s : String) : Except Unit ℚ :=
  if s = "N/A" ∨ s = "" then .ok 0
  else parseStripped (pyStrip s.data)

/-- `format_resource_value` (src/main.py:271-275). -/
def format_resource_value (value : ℚ) (resource_type : String) : String :=
  if resource_type = "cpu" then intStr (pyInt (value * 1000)) ++ "m"
  else intStr (pyInt (value / 1024 / 1024)) ++ "Mi"

/-- Zero-pad a digit string on the left to width `w`
(Python renders fixed-precision fractional parts this way). -/
def zeroPad (w : ℕ) (s : String) : String := ⟨List.replicate (w - s.length) '0'⟩ ++ s

/-- Round a rational to the nearest integer, ties to even
(the rounding used by Python fixed-point string formatting). -/
def roundHalfEven (q : ℚ) : ℤ :=
  let f := ⌊q⌋
  let r := q - (f : ℚ)
  if r < 1 / 2 then f
  else if (1 / 2 : ℚ) < r then f + 1
  else if f % 2 = 0 then f else f + 1

/-- Python `f"{q:.{prec}f}"` fixed-point formatting on the exact rational. -/
def formatFixed (prec : ℕ) (q : ℚ) : String :=
  let m := roundHalfEven (q * (10 : ℚ) ^ prec)
  let sign := if m < 0 then "-" else ""
  let a := m.natAbs
  if prec = 0 then sign ++ natStr a
  else sign ++ natStr (a / 10 ^ prec) ++ "." ++ zeroPad prec (natStr (a % 10 ^ prec))

/-- Python `sorted` on a list of numbers: ascending order (stable; on numbers
any correct ascending sort is extensionally the same). -/
def pySortQ (l : List ℚ) : List ℚ := List.insertionSort (· ≤ ·) l

/-- The index `int(len * 0.95)` used for the nearest-rank 95th percentile. -/
def p95Index (n : ℕ) : ℕ := (pyInt ((n : ℚ) * 0.95)).toNat

/-- Mean and 95th percentile of a non-empty flattened sample list
(src/main.py:62-64 / 69-71): `p95 = sorted(values)[int(n*0.95)]` when `n > 1`,
else the single value `values[0]`. -/
def seriesMeanP95 (values : List ℚ) : ℚ × ℚ :=
  (values.sum / (values.length : ℚ),
    if values.length > 1 then (pySortQ values).getD (p95Index values.length) 0
    else values.getD 0 0)

/-- CPU mean/p95 with the empty-series fallback `0.01` core (src/main.py:62-67). -/
def cpuMeanP95 (cpu_data : List (List ℚ)) : ℚ × ℚ :=
  let cpu_values := cpu_data.flatten
  if cpu_values.isEmpty then (0.01, 0.01) else seriesMeanP95 cpu_values

/-- Memory mean/p95 with the empty-series fallback `16 MiB` (src/main.py:69-74). -/
def memMeanP95 (mem_data : List (List ℚ)) : ℚ × ℚ :=
  let mem_values := mem_data.flatten
  if mem_values.isEmpty then (16 * 1024 * 1024, 16 * 1024 * 1024)
  else seriesMeanP95 mem_values

/-- The four internal recommendation values of `calculate_recommendations`
(src/main.py:76-80), before output formatting:
`(cpu_request, cpu_limit, mem_request, mem_limit)`. -/
def recommendationValues (cpu_data mem_data : List (List ℚ)) (buffer_percent : ℚ) :
    ℚ × ℚ × ℚ × ℚ :=
  let mult := 1 + buffer_percent / 100
  let cpuS := cpuMeanP95 cpu_data
  let memS := memMeanP95 mem_data
  let cpu_request := max (cpuS.1 * mult) 0.01
  let cpu_limit := max (cpuS.2 * mult) (cpu_request * 1.5)
  let mem_request := max (memS.1 * mult) (16 * 1024 * 1024)
  let mem_limit := max (memS.2 * mult) (mem_request * 1.5)
  (cpu_request, cpu_limit, mem_request, mem_limit)

/-- The `recommended` dictionary produced per container: formatted
requests/limits plus display statistics (always all present). -/
structure Recommended where
  requests_cpu : String
  requests_memory : String
  limits_cpu : String
  limits_memory : String
  stats_cpu_mean : String
  stats_cpu_p95 : String
  stats_mem_mean_mb : String
  stats_mem_p95_mb : String
deriving DecidableEq, Repr

/-- `calculate_recommendations` (src/main.py:50-97): flatten the sample
series, take mean and nearest-rank p95 (with fallback floors on empty input),
apply the buffer multiplier, floors and the 1.5x limit ratio, and format. -/
def calculate_recommendations (cpu_data mem_data : List (List ℚ))
    (buffer_percent : ℚ) : Recommended :=
  let v := recommendationValues cpu_data mem_data buffer_percent
  let cpuS := cpuMeanP95 cpu_data
  let memS := memMeanP95 mem_data
  { requests_cpu := intStr (pyInt (v.1 * 1000)) ++ "m"
    requests_memory := intStr (pyInt (v.2.2.1 / 1024 / 1024)) ++ "Mi"
    limits_cpu := intStr (pyInt (v.2.1 * 1000)) ++ "m"
    limits_memory := intStr (pyInt (v.2.2.2 / 1024 / 1024)) ++ "Mi"
    stats_cpu_mean := formatFixed 3 cpuS.1
    stats_cpu_p95 := formatFixed 3 cpuS.2
    stats_mem_mean_mb := formatFixed 2 (memS.1 / 1024 / 1024)
    stats_mem_p95_mb := formatFixed 2 (memS.2 / 1024 / 1024) }

/-- The `current` resources dictionary of a container: each of the four
fields may be absent (`none` models a missing dictionary key — the chained
`.get(..., {}).get(..., "N/A")` accesses in the source fall back to `"N/A"`). -/
structure Current where
  requests_cpu : Option String
  requests_memory : Option String
  limits_cpu : Option String
  limits_memory : Option String
deriving DecidableEq, Repr

/-- The string a chained `.get` access yields for a possibly-missing field. -/
def orNA (o : Option String) : String := o.getD "N/A"

/-- `resources_are_same` (src/main.py:252-268): parse all eight quantities,
then compare each current/recommended pair with absolute tolerance `0.001`
in canonical units.  A parse failure propagates as a raised `ValueError`. -/
def resources_are_same (current : Current) (recommended : Recommended) :
    Except Unit Bool := do
  let ccr ← parse_resource_value (orNA current.requests_cpu)
  let cmr ← parse_resource_value (orNA current.requests_memory)
  let ccl ← parse_resource_value (orNA current.limits_cpu)
  let cml ← parse_resource_value (orNA current.limits_memory)
  let rcr ← parse_resource_value recommended.requests_cpu
  let rmr ← parse_resource_value recommended.requests_memory
  let rcl ← parse_resource_value recommended.limits_cpu
  let rml ← parse_resource_value recommended.limits_memory
  pure (decide (|ccr - rcr| < 0.001 ∧ |cmr - rmr| < 0.001 ∧
                |ccl - rcl| < 0.001 ∧ |cml - rml| < 0.001))

/-- One element of a pod's `containers` list (built by `analyze_pod`). -/
structure ContainerAnalysis where
  container : String
  current : Current
  recommended : Recommended
deriving DecidableEq, Repr

/-- One element of the `recommendations` list handed to the renderers
(`ns` models the `"namespace"` key; `namespace` is a Lean keyword). -/
structure PodAnalysis where
  pod : String
  ns : String
  containers : List ContainerAnalysis
deriving DecidableEq, Repr

/-- `sys.stdout.isatty()` at module load; modelled as `false` (batch run, no
interactive terminal), the case the spec fixes for data-level properties. -/
def USE_COLORS : Bool := false

/-- ANSI codes used by the colorama constants referenced in the source. -/
def foreReset : String := "\x1b[39m"

def foreGreen : String := "\x1b[32m"

def foreBlue : String := "\x1b[34m"

def foreCyan : String := "\x1b[36m"

def foreWhite : String := "\x1b[37m"

def foreYellow : String := "\x1b[33m"

def foreMagenta : String := "\x1b[35m"

def styleBright : String := "\x1b[1m"

/-- `_colorize` (src/main.py:17-20). -/
def colorize (value : String) (color : String) : String :=
  if USE_COLORS then color ++ value ++ foreReset else value

/-- `_colorize_recommendation` (src/main.py:22-47); the `resource_type`
parameter is unused in the source body as well.  With colours disabled it
returns the recommended value unchanged before any parsing. -/
def colorizeRecommendation (current_val recommended_val _resource_type : String) :
    Except Unit String :=
  if !USE_COLORS then pure recommended_val
  else do
    let current ← parse_resource_value current_val
    let recommended ← parse_resource_value recommended_val
    if current = 0 ∨ current_val = "N/A" then
      pure (colorize recommended_val (foreGreen ++ styleBright))
    else if current = 0 then
      pure (colorize recommended_val (foreGreen ++ styleBright))
    else
      let diff_percent := (recommended - current) / current * 100
      if diff_percent > 50 then pure (colorize recommended_val (foreGreen ++ styleBright))
      else if diff_percent > 20 then pure (colorize recommended_val foreGreen)
      else if diff_percent < -50 then pure (colorize recommended_val (foreBlue ++ styleBright))
      else if diff_percent < -20 then pure (colorize recommended_val foreBlue)
      else pure (colorize recommended_val foreCyan)

/-- Entry stored in a YAML-renderer container group (no `"pod"` key). -/
structure EntryY where
  ns : String
  container : String
  current : Current
  recommended : Recommended
deriving DecidableEq, Repr

/-- Entry stored in a table/HTML-renderer container group. -/
structure EntryT where
  ns : String
  pod : String
  container : String
  current : Current
  recommended : Recommended
deriving DecidableEq, Repr

/-- `defaultdict(list)` keyed by container name, with insertion-ordered keys:
append `e` to the list at key `k`, creating the key at the end if absent. -/
def addEntry {α : Type} (gs : List (String × List α)) (k : String) (e : α) :
    List (String × List α) :=
  match gs with
  | [] => [(k, [e])]
  | (k2, es) :: rest =>
      if k2 = k then (k2, es ++ [e]) :: rest else (k2, es) :: addEntry rest k e

/-- One iteration of the YAML renderer's group-building loop
(src/main.py:156-167): skip containers whose recommendation is a no-op,
append the rest to their container-name group. -/
def groupStepY (pa : PodAnalysis) (gs : List (String × List EntryY))
    (c : ContainerAnalysis) : Except Unit (List (String × List EntryY)) := do
  let same ← resources_are_same c.current c.recommended
  if same then pure gs
  else pure (addEntry gs c.container ⟨pa.ns, c.container, c.current, c.recommended⟩)

/-- Group-building loop of `format_as_yaml` (src/main.py:154-167). -/
def buildGroupsY (recommendations : List PodAnalysis) :
    Except Unit (List (String × List EntryY)) :=
  recommendations.foldlM (fun gs pa => pa.containers.foldlM (groupStepY pa) gs) []

/-- One iteration of the table renderer's group-building loop
(src/main.py:283-295). -/
def groupStepT (pa : PodAnalysis) (gs : List (String × List EntryT))
    (c : ContainerAnalysis) : Except Unit (List (String × List EntryT)) := do
  let same ← resources_are_same c.current c.recommended
  if same then pure gs
  else pure (addEntry gs c.container ⟨pa.ns, pa.pod, c.container, c.current, c.recommended⟩)

/-- Group-building loop of `format_as_table` (src/main.py:281-295). -/
def buildGroupsT (recommendations : List PodAnalysis) :
    Except Unit (List (String × List EntryT)) :=
  recommendations.foldlM (fun gs pa => pa.containers.foldlM (groupStepT pa) gs) []

/-- One iteration of the HTML renderer's group-building loop
(src/main.py:390-402); the source duplicates the table renderer's loop. -/
def groupStepH (pa : PodAnalysis) (gs : List (String × List EntryT))
    (c : ContainerAnalysis) : Except Unit (List (String × List EntryT)) := do
  let same ← resources_are_same c.current c.recommended
  if same then pure gs
  else pure (addEntry gs c.container ⟨pa.ns, pa.pod, c.container, c.current, c.recommended⟩)

/-- Group-building loop of `format_as_html_table` (src/main.py:388-402). -/
def buildGroupsH (recommendations : List PodAnalysis) :
    Except Unit (List (String × List EntryT)) :=
  recommendations.foldlM (fun gs pa => pa.containers.foldlM (groupStepH pa) gs) []

/-- Strict lexicographic order on character lists by code point,
as Python compares strings. -/
def charListLt : List Char → List Char → Bool
  | [], [] => false
  | [], _ :: _ => true
  | _ :: _, [] => false
  | a :: as, b :: bs =>
      if a.toNat < b.toNat then true
      else if b.toNat < a.toNat then false
      else charListLt as bs

/-- Python string `<`. -/
def strLt (a b : String) : Bool := charListLt a.data b.data

/-- Python tuple `≤` on a pair of strings (the sort key comparison). -/
def pairLe (a b : String × String) : Bool :=
  strLt a.1 b.1 || (a.1 == b.1 && (strLt a.2 b.2 || a.2 == b.2))

/-- Sort key `(x[1][0]["namespace"] if x[1] else "", x[0])` of the YAML
renderer (src/main.py:176). -/
def groupKeyY (g : String × List EntryY) : String × String :=
  (match g.2 with | [] => "" | e :: _ => e.ns, g.1)

/-- The same sort key in the table renderer (src/main.py:302). -/
def groupKeyT (g : String × List EntryT) : String × String :=
  (match g.2 with | [] => "" | e :: _ => e.ns, g.1)

/-- The same sort key in the HTML renderer (src/main.py:444). -/
def groupKeyH (g : String × List EntryT) : String × String :=
  (match g.2 with | [] => "" | e :: _ => e.ns, g.1)

/-- Python `sorted(container_groups.items(), key=...)`: ascending stable sort;
on the insertion-ordered group list the keys are pairwise distinct, so any
correct ascending sort is extensionally the same. -/
def sortGroupsY (gs : List (String × List EntryY)) : List (String × List EntryY) :=
  List.insertionSort (fun a b => pairLe (groupKeyY a) (groupKeyY b)) gs

def sortGroupsT (gs : List (String × List EntryT)) : List (String × List EntryT) :=
  List.insertionSort (fun a b => pairLe (groupKeyT a) (groupKeyT b)) gs

def sortGroupsH (gs : List (String × List EntryT)) : List (String × List EntryT) :=
  List.insertionSort (fun a b => pairLe (groupKeyH a) (groupKeyH b)) gs

/-- One iteration of the YAML renderer's per-group maxima fold
(src/main.py:186-196), in source order `(cpu_req, mem_req, cpu_lim, mem_lim)`. -/
def yamlMaxStep (m : ℚ × ℚ × ℚ × ℚ) (c : EntryY) : Except Unit (ℚ × ℚ × ℚ × ℚ) := do
  let cpu_req ← parse_resource_value c.recommended.requests_cpu
  let mem_req ← parse_resource_value c.recommended.requests_memory
  let cpu_lim ← parse_resource_value c.recommended.limits_cpu
  let mem_lim ← parse_resource_value c.recommended.limits_memory
  pure (max m.1 cpu_req, max m.2.1 mem_req, max m.2.2.1 cpu_lim, max m.2.2.2 mem_lim)

/-- Per-group maxima fold of the YAML renderer (src/main.py:181-196):
element-wise maxima of the four parsed recommended quantities, starting from
`0.0`. -/
def yamlMaxima (containers : List EntryY) : Except Unit (ℚ × ℚ × ℚ × ℚ) :=
  containers.foldlM yamlMaxStep (0, 0, 0, 0)

/-- Accumulator of the per-group loop in the table/HTML renderers. -/
structure GroupAgg where
  max_cpu_req : ℚ
  max_mem_req : ℚ
  max_cpu_lim : ℚ
  max_mem_lim : ℚ
  total_cpu_mean : ℚ
  total_mem_mean : ℚ
  count : ℕ
deriving DecidableEq, Repr

/-- The stat-total accumulation of the table/HTML per-group loops
(src/main.py:335-338): add `float(stat)` to the running total unless the
stat string is `"N/A"`. -/
def statAdd (total : ℚ) (s : String) : Except Unit ℚ :=
  if s ≠ "N/A" then do
    let x ← tryFloat s.data
    pure (total + x)
  else pure total

/-- One iteration of the table renderer's per-group loop (src/main.py:321-339):
maxima of the recommended quantities plus running stat totals. -/
def tableAggStep (m : GroupAgg) (c : EntryT) : Except Unit GroupAgg := do
  let cpu_req ← parse_resource_value c.recommended.requests_cpu
  let mem_req ← parse_resource_value c.recommended.requests_memory
  let cpu_lim ← parse_resource_value c.recommended.limits_cpu
  let mem_lim ← parse_resource_value c.recommended.limits_memory
  let tc ← statAdd m.total_cpu_mean c.recommended.stats_cpu_mean
  let tm ← statAdd m.total_mem_mean c.recommended.stats_mem_mean_mb
  pure ⟨max m.max_cpu_req cpu_req, max m.max_mem_req mem_req,
        max m.max_cpu_lim cpu_lim, max m.max_mem_lim mem_lim, tc, tm, m.count + 1⟩

def tableAgg (containers : List EntryT) : Except Unit GroupAgg :=
  containers.foldlM tableAggStep ⟨0, 0, 0, 0, 0, 0, 0⟩

/-- One iteration of the HTML renderer's per-group loop (src/main.py:463-481);
the source duplicates the table renderer's loop verbatim. -/
def htmlAggStep (m : GroupAgg) (c : EntryT) : Except Unit GroupAgg := do
  let cpu_req ← parse_resource_value c.recommended.requests_cpu
  let mem_req ← parse_resource_value c.recommended.requests_memory
  let cpu_lim ← parse_resource_value c.recommended.limits_cpu
  let mem_lim ← parse_resource_value c.recommended.limits_memory
  let tc ← statAdd m.total_cpu_mean c.recommended.stats_cpu_mean
  let tm ← statAdd m.total_mem_mean c.recommended.stats_mem_mean_mb
  pure ⟨max m.max_cpu_req cpu_req, max m.max_mem_req mem_req,
        max m.max_cpu_lim cpu_lim, max m.max_mem_lim mem_lim, tc, tm, m.count + 1⟩

def htmlAgg (containers : List EntryT) : Except Unit GroupAgg :=
  containers.foldlM htmlAggStep ⟨0, 0, 0, 0, 0, 0, 0⟩

/-- `"\n".join(lines)`. -/
def pyJoin (sep : String) : List String → String
  | [] => ""
  | [x] => x
  | x :: y :: xs => x ++ sep ++ pyJoin sep (y :: xs)

/-- Sentinel returned by `format_as_yaml` when every group is filtered out. -/
def yamlSentinel : String := "# No recommendations - all resources are already optimized."

/-- Sentinel returned by `format_as_table` when every group is filtered out. -/
def tableSentinel : String := "No recommendations - all resources are already optimized."

/-- Sentinel returned by `format_as_html_table` when every group is filtered out. -/
def htmlSentinel : String := "<p>No recommendations - all resources are already optimized.</p>"

/-- `yaml.dump({"resources": {...}}, default_flow_style=False, sort_keys=False)`
for the fixed two-level mapping built in src/main.py:203-214.  The values are
plain scalars (digits plus a unit suffix), so the external library renders
them unquoted in insertion order with two-space indentation. -/
def yamlDumpResources (cpu mem cpul meml : String) : String :=
  "resources:\n  requests:\n    cpu: " ++ cpu ++ "\n    memory: " ++ mem ++
  "\n  limits:\n    cpu: " ++ cpul ++ "\n    memory: " ++ meml ++ "\n"

/-- Lines appended for one group by `format_as_yaml` (src/main.py:178-218).
`containers[0]` raises `IndexError` on an empty group. -/
def yamlGroupLines (container_name : String) (containers : List EntryY) :
    Except Unit (List String) :=
  match containers with
  | [] => .error ()
  | _ :: _ => do
    let m ← yamlMaxima containers
    pure ["# Patch deployment: " ++ container_name,
          "#------------",
          "# " ++ container_name,
          "#-------------",
          yamlDumpResources (format_resource_value m.1 "cpu")
            (format_resource_value m.2.1 "memory")
            (format_resource_value m.2.2.1 "cpu")
            (format_resource_value m.2.2.2 "memory"),
          ""]

/-- `format_as_yaml` (src/main.py:151-220). -/
def format_as_yaml (recommendations : List PodAnalysis) : Except Unit String := do
  let groups ← buildGroupsY recommendations
  if groups.isEmpty then pure yamlSentinel
  else do
    let sections ← (sortGroupsY groups).mapM (fun g => yamlGroupLines g.1 g.2)
    pure (pyJoin "\n"
      ("# Patch the deployment for each container" :: "" :: sections.flatten))

/-- The row of table cells built for one group by `format_as_table`
(src/main.py:304-364), with colours disabled (identity decoration). -/
def tableRow (container_name : String) (containers : List EntryT) :
    Except Unit (List String) :=
  match containers with
  | [] => .error ()
  | e0 :: _ => do
    let agg ← tableAgg containers
    let avg_cpu_mean : ℚ := if agg.count > 0 then agg.total_cpu_mean / agg.count else 0
    let avg_mem_mean : ℚ := if agg.count > 0 then agg.total_mem_mean / agg.count else 0
    let current_cpu_req := orNA e0.current.requests_cpu
    let current_mem_req := orNA e0.current.requests_memory
    let current_cpu_lim := orNA e0.current.limits_cpu
    let current_mem_lim := orNA e0.current.limits_memory
    let rec_cpu_req := format_resource_value agg.max_cpu_req "cpu"
    let rec_mem_req := format_resource_value agg.max_mem_req "memory"
    let rec_cpu_lim := format_resource_value agg.max_cpu_lim "cpu"
    let rec_mem_lim := format_resource_value agg.max_mem_lim "memory"
    let k1 ← colorizeRecommendation current_cpu_req rec_cpu_req "cpu"
    let k2 ← colorizeRecommendation
      (if current_cpu_lim ≠ "N/A" then current_cpu_lim else "0m") rec_cpu_lim "cpu"
    let k3 ← colorizeRecommendation current_mem_req rec_mem_req "memory"
    let k4 ← colorizeRecommendation
      (if current_mem_lim ≠ "N/A" then current_mem_lim else "0Mi") rec_mem_lim "memory"
    pure [colorize e0.ns foreCyan,
          colorize e0.pod foreCyan,
          colorize container_name foreYellow,
          colorize current_cpu_req foreWhite, k1,
          colorize current_cpu_lim foreWhite, k2,
          colorize current_mem_req foreWhite, k3,
          colorize current_mem_lim foreWhite, k4,
          colorize (if avg_cpu_mean > 0 then formatFixed 2 avg_cpu_mean else "N/A") foreMagenta,
          colorize (if avg_mem_mean > 0 then formatFixed 2 avg_mem_mean else "N/A") foreMagenta]

/-- Result of `format_as_table`: either the no-op sentinel string or the data
rows handed to the external `tabulate` library for final string assembly. -/
inductive TableOut
  | sentinel (s : String)
  | table (rows : List (List String))
deriving DecidableEq, Repr

/-- `format_as_table` (src/main.py:278-382). -/
def format_as_table (recommendations : List PodAnalysis) : Except Unit TableOut := do
  let groups ← buildGroupsT recommendations
  if groups.isEmpty then pure (.sentinel tableSentinel)
  else do
    let rows ← (sortGroupsT groups).mapM (fun g => tableRow g.1 g.2)
    pure (.table rows)

/-- `_get_html_class` (src/main.py:491-508), including the source's repeated
dead `current == 0` check. -/
def getHtmlClass (current_val recommended_val : String) : Except Unit String := do
  let current ← parse_resource_value current_val
  let recommended ← parse_resource_value recommended_val
  if current = 0 ∨ current_val = "N/A" then pure "new"
  else if current = 0 then pure "new"
  else
    let diff_percent := (recommended - current) / current * 100
    if diff_percent > 20 then pure "increase"
    else if diff_percent < -20 then pure "decrease"
    else pure "minor"

/-- The `<tr>` line block built for one group by `format_as_html_table`
(src/main.py:446-526). -/
def htmlRow (container_name : String) (containers : List EntryT) :
    Except Unit (List String) :=
  match containers with
  | [] => .error ()
  | e0 :: _ => do
    let agg ← htmlAgg containers
    let avg_cpu_mean : ℚ := if agg.count > 0 then agg.total_cpu_mean / agg.count else 0
    let avg_mem_mean : ℚ := if agg.count > 0 then agg.total_mem_mean / agg.count else 0
    let current_cpu_req := orNA e0.current.requests_cpu
    let current_mem_req := orNA e0.current.requests_memory
    let current_cpu_lim := orNA e0.current.limits_cpu
    let current_mem_lim := orNA e0.current.limits_memory
    let rec_cpu_req := format_resource_value agg.max_cpu_req "cpu"
    let rec_mem_req := format_resource_value agg.max_mem_req "memory"
    let rec_cpu_lim := format_resource_value agg.max_cpu_lim "cpu"
    let rec_mem_lim := format_resource_value agg.max_mem_lim "memory"
    let k1 ← getHtmlClass current_cpu_req rec_cpu_req
    let k2 ← getHtmlClass
      (if current_cpu_lim ≠ "N/A" then current_cpu_lim else "0m") rec_cpu_lim
    let k3 ← getHtmlClass current_mem_req rec_mem_req
    let k4 ← getHtmlClass
      (if current_mem_lim ≠ "N/A" then current_mem_lim else "0Mi") rec_mem_lim
    let avg_cpu_str := if avg_cpu_mean > 0 then formatFixed 2 avg_cpu_mean else "N/A"
    let avg_mem_str := if avg_mem_mean > 0 then formatFixed 2 avg_mem_mean else "N/A"
    pure ["<tr>",
          "<td>" ++ e0.ns ++ "</td>",
          "<td>" ++ e0.pod ++ "</td>",
          "<td>" ++ container_name ++ "</td>",
          "<td>" ++ current_cpu_req ++ "</td>",
          "<td class=\x27" ++ k1 ++ "\x27>" ++ rec_cpu_req ++ "</td>",
          "<td>" ++ current_cpu_lim ++ "</td>",
          "<td class=\x27" ++ k2 ++ "\x27>" ++ rec_cpu_lim ++ "</td>",
          "<td>" ++ current_mem_req ++ "</td>",
          "<td class=\x27" ++ k3 ++ "\x27>" ++ rec_mem_req ++ "</td>",
          "<td>" ++ current_mem_lim ++ "</td>",
          "<td class=\x27" ++ k4 ++ "\x27>" ++ rec_mem_lim ++ "</td>",
          "<td>" ++ avg_cpu_str ++ "</td>",
          "<td>" ++ avg_mem_str ++ "</td>",
          "</tr>"]

/-- The fixed prologue lines of the HTML document (src/main.py:408-427). -/
def htmlProlog : List String :=
  ["<!DOCTYPE html>", "<html>", "<head>", "<meta charset=\x27utf-8\x27>", "<style>",
   "body \x7b font-family: Arial, sans-serif; margin: 20px; \x7d",
   "table \x7b border-collapse: collapse; width: 100%; margin-top: 20px; \x7d",
   "th, td \x7b border: 1px solid #ddd; padding: 8px; text-align: left; \x7d",
   "th \x7b background-color: #4CAF50; color: white; font-weight: bold; \x7d",
   "tr:nth-child(even) \x7b background-color: #f2f2f2; \x7d",
   "tr:hover \x7b background-color: #ddd; \x7d",
   ".increase \x7b color: #2e7d32; font-weight: bold; \x7d",
   ".decrease \x7b color: #1976d2; font-weight: bold; \x7d",
   ".new \x7b color: #2e7d32; font-weight: bold; \x7d",
   ".minor \x7b color: #0288d1; \x7d",
   "</style>", "</head>", "<body>",
   "<h2>Kubernetes Resource Recommendations</h2>", "<table>"]

/-- The column header texts (src/main.py:429-436). -/
def htmlHeaders : List String :=
  ["Namespace", "Pod", "Container",
   "Curr CPU Req", "Reco.. CPU Req",
   "Curr CPU Limit", "Reco.. CPU Limit",
   "Curr Mem Req", "Reco.. Mem Req",
   "Curr Mem Limit", "Reco.. Mem Limit",
   "Avg CPU (cores)", "Avg Mem (MB)"]

/-- `format_as_html_table` (src/main.py:385-533). -/
def format_as_html_table (recommendations : List PodAnalysis) : Except Unit String := do
  let groups ← buildGroupsH recommendations
  if groups.isEmpty then pure htmlSentinel
  else do
    let rows ← (sortGroupsH groups).mapM (fun g => htmlRow g.1 g.2)
    pure (pyJoin "\n"
      (htmlProlog ++ ["<thead><tr>"] ++ htmlHeaders.map (fun h => "<th>" ++ h ++ "</th>") ++
       ["</tr></thead>", "<tbody>"] ++ rows.flatten ++
       ["</tbody>", "</table>", "</body>", "</html>"]))

/-! Section: Utility lemmas about stripping and digit strings -/

lemma takeWhile_all {p : Char → Bool} :
    ∀ l : List Char, (∀ c ∈ l, p c = true) → l.takeWhile p = l := by
  intro l h
  induction l with
  | nil => rfl
  | cons c t ih =>
      simp only [List.takeWhile_cons, h c (List.mem_cons_self c t), if_true]
      rw [ih fun x hx => h x (List.mem_cons_of_mem c hx)]

lemma dropWhile_all {p : Char → Bool} :
    ∀ l : List Char, (∀ c ∈ l, p c = true) → l.dropWhile p = [] := by
  intro l h
  induction l with
  | nil => rfl
  | cons c t ih =>
      simp only [List.dropWhile_cons, h c (List.mem_cons_self c t), if_true]
      exact ih fun x hx => h x (List.mem_cons_of_mem c hx)

lemma dropWhile_none {p : Char → Bool} :
    ∀ l : List Char, (∀ c ∈ l, p c = false) → l.dropWhile p = l := by
  intro l h
  cases l with
  | nil => rfl
  | cons c t => simp [List.dropWhile_cons, h c (List.mem_cons_self c t)]

lemma pyStrip_id (l : List Char) (h : ∀ c ∈ l, isPySpace c = false) :
    pyStrip l = l := by
  unfold pyStrip
  rw [dropWhile_none l h, dropWhile_none l.reverse
    (fun c hc => h c (List.mem_reverse.mp hc)), List.reverse_reverse]

lemma isPySpace_eq_false_of_isDigit (c : Char) (h : c.isDigit = true) :
    isPySpace c = false := by
  rcases Bool.eq_false_or_eq_true (isPySpace c) with ht | hf
  swap
  · exact hf
  · exfalso
    unfold isPySpace at ht
    simp only [Bool.or_eq_true, decide_eq_true_eq] at ht
    rcases ht with ((((h1 | h2) | h3) | h4) | h5) | h6 <;> subst_vars <;>
      exact absurd h (by decide)

lemma digitVal_digitChar {d : ℕ} (h : d < 10) : digitVal (digitChar d) = d := by
  interval_cases d <;> decide

lemma isDigit_digitChar {d : ℕ} (h : d < 10) : (digitChar d).isDigit = true := by
  interval_cases d <;> decide

lemma digitsVal_concat (xs : List Char) (c : Char) :
    digitsVal (xs ++ [c]) = 10 * digitsVal xs + digitVal c := by
  unfold digitsVal
  rw [List.foldl_append]
  rfl

lemma natStrAux_spec :
    ∀ fuel n, n ≤ fuel →
      digitsVal (natStrAux fuel n) = n ∧
      (∀ c ∈ natStrAux fuel n, c.isDigit = true) ∧
      (0 < n → natStrAux fuel n ≠ []) := by
  intro fuel
  induction fuel with
  | zero =>
      intro n hn
      interval_cases n
      exact ⟨rfl, by simp [natStrAux], by simp⟩
  | succ f ih =>
      intro n hn
      cases n with
      | zero => exact ⟨rfl, by simp [natStrAux], by simp⟩
      | succ m =>
          have hlt : (m + 1) / 10 < m + 1 := Nat.div_lt_self (Nat.succ_pos m) (by norm_num)
          have hle : (m + 1) / 10 ≤ f := by omega
          obtain ⟨hval, hdig, _⟩ := ih ((m + 1) / 10) hle
          have hmod : (m + 1) % 10 < 10 := Nat.mod_lt _ (by norm_num)
          refine ⟨?_, ?_, ?_⟩
          · show digitsVal (natStrAux f ((m + 1) / 10) ++ [digitChar ((m + 1) % 10)]) = m + 1
            rw [digitsVal_concat, hval, digitVal_digitChar hmod, Nat.div_add_mod]
          · intro c hc
            rcases List.mem_append.mp hc with hc1 | hc2
            · exact hdig c hc1
            · rcases List.mem_singleton.mp hc2 with rfl
              exact isDigit_digitChar hmod
          · intro _
            show natStrAux f ((m + 1) / 10) ++ [digitChar ((m + 1) % 10)] ≠ []
            simp

lemma natStr_data_digits (n : ℕ) :
    (natStr n).data ≠ [] ∧ ∀ c ∈ (natStr n).data, c.isDigit = true := by
  unfold natStr
  by_cases h : n = 0
  · subst h; exact ⟨by decide, by decide⟩
  · rw [if_neg h]
    obtain ⟨_, hdig, hne⟩ := natStrAux_spec n n le_rfl
    exact ⟨hne (Nat.pos_of_ne_zero h), hdig⟩

lemma digitsVal_natStr (n : ℕ) : digitsVal (natStr n).data = n := by
  unfold natStr
  by_cases h : n = 0
  · subst h; decide
  · rw [if_neg h]
    exact (natStrAux_spec n n le_rfl).1

/-! Section: `float` conversion recovers rendered decimal naturals -/

lemma pyFloatUnsigned_digits (l : List Char) (hne : l ≠ [])
    (hdig : ∀ c ∈ l, c.isDigit = true) :
    pyFloatUnsigned l = some ((digitsVal l : ℚ)) := by
  unfold pyFloatUnsigned
  rw [takeWhile_all l hdig, dropWhile_all l hdig]
  simp [hne, List.isEmpty_iff, show digitsVal [] = 0 from rfl]

lemma pyFloat_digits (l : List Char) (hne : l ≠ [])
    (hdig : ∀ c ∈ l, c.isDigit = true) :
    pyFloat l = some ((digitsVal l : ℚ)) := by
  unfold pyFloat
  rw [pyStrip_id l (fun c hc => isPySpace_eq_false_of_isDigit c (hdig c hc))]
  cases l with
  | nil => exact absurd rfl hne
  | cons c t =>
      have hc : c.isDigit = true := hdig c (List.mem_cons_self c t)
      have h1 : c ≠ '+' := by rintro rfl; exact absurd hc (by decide)
      have h2 : c ≠ '-' := by rintro rfl; exact absurd hc (by decide)
      show (if c = '+' then pyFloatUnsigned t
        else if c = '-' then Option.map (fun q => -q) (pyFloatUnsigned t)
        else pyFloatUnsigned (c :: t)) = some ((digitsVal (c :: t) : ℚ))
      rw [if_neg h1, if_neg h2]
      exact pyFloatUnsigned_digits _ hne hdig

lemma pyFloat_natStr (n : ℕ) : pyFloat (natStr n).data = some ((n : ℚ)) := by
  obtain ⟨hne, hdig⟩ := natStr_data_digits n
  rw [pyFloat_digits _ hne hdig, digitsVal_natStr]

/-! Section: `parse_resource_value` on rendered quantity strings -/

lemma parseStripped_of_reverse_m (v r : List Char) (h : v.reverse = 'm' :: r) :
    parseStripped v = (tryFloat r.reverse).map (fun q => q / 1000) := by
  unfold parseStripped
  rw [h]
  simp

lemma parseStripped_of_reverse_Mi (v r : List Char) (h : v.reverse = 'i' :: 'M' :: r) :
    parseStripped v = (tryFloat r.reverse).map (fun q => q * (1024 * 1024)) := by
  unfold parseStripped
  rw [h]
  simp

lemma parseStripped_of_reverse_n (v r : List Char) (h : v.reverse = 'n' :: r) :
    parseStripped v = (tryFloat r.reverse).map (fun q => q / 1000000000) := by
  unfold parseStripped
  rw [h]
  simp

lemma parseStripped_of_reverse_Gi (v r : List Char) (h : v.reverse = 'i' :: 'G' :: r) :
    parseStripped v = (tryFloat r.reverse).map (fun q => q * (1024 * 1024 * 1024)) := by
  unfold parseStripped
  rw [h]
  simp

lemma parseStripped_of_reverse_M (v r : List Char) (h : v.reverse = 'M' :: r) :
    parseStripped v = (tryFloat r.reverse).map (fun q => q * (1000 * 1000)) := by
  unfold parseStripped
  rw [h]
  simp

lemma parseStripped_of_reverse_G (v r : List Char) (h : v.reverse = 'G' :: r) :
    parseStripped v = (tryFloat r.reverse).map (fun q => q * (1000 * 1000 * 1000)) := by
  unfold parseStripped
  rw [h]
  simp

lemma data_append_ne_NA {s : String} (c : Char) (hc : c ≠ 'A')
    (h : s.data ≠ []) (hlast : s.data.getLast? = some c) : s ≠ "N/A" := by
  intro he
  rw [he] at hlast
  exact hc (by
    have : ("N/A").data.getLast? = some 'A' := by decide
    rw [this] at hlast
    exact Option.some_injective _ hlast.symm)

lemma parse_natStr_m (n : ℕ) :
    parse_resource_value (natStr n ++ "m") = .ok ((n : ℚ) / 1000) := by
  obtain ⟨hne, hdig⟩ := natStr_data_digits n
  have hdata : (natStr n ++ "m").data = (natStr n).data ++ ['m'] := by
    rw [String.data_append]
  have hlast : (natStr n ++ "m").data.getLast? = some 'm' := by
    rw [hdata, List.getLast?_concat]
  have hNA : ¬(natStr n ++ "m" = "N/A" ∨ natStr n ++ "m" = "") := by
    rintro (h | h)
    · exact data_append_ne_NA 'm' (by decide) (by rw [hdata]; simp) hlast h
    · have := congrArg String.data h
      rw [hdata] at this
      simp at this
  have hallnospace : ∀ c ∈ (natStr n).data ++ ['m'], isPySpace c = false := by
    intro c hc
    rcases List.mem_append.mp hc with h1 | h1
    · exact isPySpace_eq_false_of_isDigit c (hdig c h1)
    · rcases List.mem_singleton.mp h1 with rfl
      decide
  unfold parse_resource_value
  rw [if_neg hNA, hdata, pyStrip_id _ hallnospace,
    parseStripped_of_reverse_m _ (natStr n).data.reverse (by simp),
    List.reverse_reverse]
  unfold tryFloat
  rw [pyFloat_natStr]
  rfl

lemma parse_natStr_Mi (n : ℕ) :
    parse_resource_value (natStr n ++ "Mi") = .ok ((n : ℚ) * (1024 * 1024)) := by
  obtain ⟨hne, hdig⟩ := natStr_data_digits n
  have hdata : (natStr n ++ "Mi").data = (natStr n).data ++ ['M', 'i'] := by
    rw [String.data_append]
  have hNA : ¬(natStr n ++ "Mi" = "N/A" ∨ natStr n ++ "Mi" = "") := by
    rintro (h | h)
    · refine data_append_ne_NA 'i' (by decide) (by rw [hdata]; simp) ?_ h
      rw [hdata, show (natStr n).data ++ ['M', 'i'] = ((natStr n).data ++ ['M']) ++ ['i'] by simp,
        List.getLast?_concat]
    · have := congrArg String.data h
      rw [hdata] at this
      simp at this
  have hallnospace : ∀ c ∈ (natStr n).data ++ ['M', 'i'], isPySpace c = false := by
    intro c hc
    rcases List.mem_append.mp hc with h1 | h1
    · exact isPySpace_eq_false_of_isDigit c (hdig c h1)
    · rcases List.mem_cons.mp h1 with rfl | h1
      · decide
      · rcases List.mem_singleton.mp h1 with rfl
        decide
  unfold parse_resource_value
  rw [if_neg hNA, hdata, pyStrip_id _ hallnospace,
    parseStripped_of_reverse_Mi _ (natStr n).data.reverse (by simp),
    List.reverse_reverse]
  unfold tryFloat
  rw [pyFloat_natStr]
  rfl

lemma parse_natStr_n (n : ℕ) :
    parse_resource_value (natStr n ++ "n") = .ok ((n : ℚ) / 1000000000) := by
  obtain ⟨hne, hdig⟩ := natStr_data_digits n
  have hdata : (natStr n ++ "n").data = (natStr n).data ++ ['n'] := by
    rw [String.data_append]
  have hNA : ¬(natStr n ++ "n" = "N/A" ∨ natStr n ++ "n" = "") := by
    rintro (h | h)
    · exact data_append_ne_NA 'n' (by decide) (by rw [hdata]; simp)
        (by rw [hdata, List.getLast?_concat]) h
    · have := congrArg String.data h
      rw [hdata] at this
      simp at this
  have hallnospace : ∀ c ∈ (natStr n).data ++ ['n'], isPySpace c = false := by
    intro c hc
    rcases List.mem_append.mp hc with h1 | h1
    · exact isPySpace_eq_false_of_isDigit c (hdig c h1)
    · rcases List.mem_singleton.mp h1 with rfl
      decide
  unfold parse_resource_value
  rw [if_neg hNA, hdata, pyStrip_id _ hallnospace,
    parseStripped_of_reverse_n _ (natStr n).data.reverse (by simp),
    List.reverse_reverse]
  unfold tryFloat
  rw [pyFloat_natStr]
  rfl

lemma parse_natStr_Gi (n : ℕ) :
    parse_resource_value (natStr n ++ "Gi") = .ok ((n : ℚ) * (1024 * 1024 * 1024)) := by
  obtain ⟨hne, hdig⟩ := natStr_data_digits n
  have hdata : (natStr n ++ "Gi").data = (natStr n).data ++ ['G', 'i'] := by
    rw [String.data_append]
  have hNA : ¬(natStr n ++ "Gi" = "N/A" ∨ natStr n ++ "Gi" = "") := by
    rintro (h | h)
    · refine data_append_ne_NA 'i' (by decide) (by rw [hdata]; simp) ?_ h
      rw [hdata, show (natStr n).data ++ ['G', 'i'] = ((natStr n).data ++ ['G']) ++ ['i'] by simp,
        List.getLast?_concat]
    · have := congrArg String.data h
      rw [hdata] at this
      simp at this
  have hallnospace : ∀ c ∈ (natStr n).data ++ ['G', 'i'], isPySpace c = false := by
    intro c hc
    rcases List.mem_append.mp hc with h1 | h1
    · exact isPySpace_eq_false_of_isDigit c (hdig c h1)
    · rcases List.mem_cons.mp h1 with rfl | h1
      · decide
      · rcases List.mem_singleton.mp h1 with rfl
        decide
  unfold parse_resource_value
  rw [if_neg hNA, hdata, pyStrip_id _ hallnospace,
    parseStripped_of_reverse_Gi _ (natStr n).data.reverse (by simp),
    List.reverse_reverse]
  unfold tryFloat
  rw [pyFloat_natStr]
  rfl

lemma parse_natStr_G (n : ℕ) :
    parse_resource_value (natStr n ++ "G") = .ok ((n : ℚ) * (1000 * 1000 * 1000)) := by
  obtain ⟨hne, hdig⟩ := natStr_data_digits n
  have hdata : (natStr n ++ "G").data = (natStr n).data ++ ['G'] := by
    rw [String.data_append]
  have hNA : ¬(natStr n ++ "G" = "N/A" ∨ natStr n ++ "G" = "") := by
    rintro (h | h)
    · exact data_append_ne_NA 'G' (by decide) (by rw [hdata]; simp)
        (by rw [hdata, List.getLast?_concat]) h
    · have := congrArg String.data h
      rw [hdata] at this
      simp at this
  have hallnospace : ∀ c ∈ (natStr n).data ++ ['G'], isPySpace c = false := by
    intro c hc
    rcases List.mem_append.mp hc with h1 | h1
    · exact isPySpace_eq_false_of_isDigit c (hdig c h1)
    · rcases List.mem_singleton.mp h1 with rfl
      decide
  unfold parse_resource_value
  rw [if_neg hNA, hdata, pyStrip_id _ hallnospace,
    parseStripped_of_reverse_G _ (natStr n).data.reverse (by simp),
    List.reverse_reverse]
  unfold tryFloat
  rw [pyFloat_natStr]
  rfl

/-- `format_resource_value` on a nonnegative CPU quantity renders the floor of
the milli-value in decimal. -/
lemma format_cpu_eq (q : ℚ) (hq : 0 ≤ q) :
    format_resource_value q "cpu" = natStr (⌊q * 1000⌋).toNat ++ "m" := by
  have h1 : (0 : ℚ) ≤ q * 1000 := mul_nonneg hq (by norm_num)
  unfold format_resource_value pyInt intStr
  rw [if_pos rfl, if_pos h1, if_neg (not_lt.mpr (Int.floor_nonneg.mpr h1))]

/-- `format_resource_value` on a nonnegative memory quantity renders the floor
of the Mi-value in decimal. -/
lemma format_mem_eq (q : ℚ) (hq : 0 ≤ q) :
    format_resource_value q "memory" = natStr (⌊q / 1024 / 1024⌋).toNat ++ "Mi" := by
  have h1 : (0 : ℚ) ≤ q / 1024 / 1024 :=
    div_nonneg (div_nonneg hq (by norm_num)) (by norm_num)
  unfold format_resource_value pyInt intStr
  rw [if_neg (by decide), if_pos h1, if_neg (not_lt.mpr (Int.floor_nonneg.mpr h1))]

lemma parse_format_cpu (q : ℚ) (hq : 0 ≤ q) :
    parse_resource_value (format_resource_value q "cpu") =
      .ok ((⌊q * 1000⌋ : ℚ) / 1000) := by
  have h1 : (0 : ℚ) ≤ q * 1000 := mul_nonneg hq (by norm_num)
  rw [format_cpu_eq q hq, parse_natStr_m]
  congr 1
  have h2 := Int.toNat_of_nonneg (Int.floor_nonneg.mpr h1)
  congr 1
  exact_mod_cast h2

lemma parse_format_mem (q : ℚ) (hq : 0 ≤ q) :
    parse_resource_value (format_resource_value q "memory") =
      .ok ((⌊q / 1024 / 1024⌋ : ℚ) * (1024 * 1024)) := by
  have h1 : (0 : ℚ) ≤ q / 1024 / 1024 :=
    div_nonneg (div_nonneg hq (by norm_num)) (by norm_num)
  rw [format_mem_eq q hq, parse_natStr_Mi]
  congr 2
  have h2 := Int.toNat_of_nonneg (Int.floor_nonneg.mpr h1)
  exact_mod_cast h2

lemma tryFloat_ok_of_not_none {cs : List Char} (h : (pyFloat cs).isNone = false) :
    ∃ q, tryFloat cs = .ok q := by
  cases hopt : pyFloat cs with
  | none => rw [hopt] at h; simp at h
  | some q => exact ⟨q, by unfold tryFloat; rw [hopt]⟩

/-! Section: Claim C1 -/

lemma parseStripped_of_reverse_nil (v : List Char) (h : v.reverse = []) :
    parseStripped v = .ok ((pyFloat v).getD 0) := by
  unfold parseStripped
  rw [h]

lemma parseStripped_of_reverse_other (v : List Char) (c : Char) (r : List Char)
    (hrev : v.reverse = c :: r) (hm : c ≠ 'm') (hn : c ≠ 'n') (hi : c ≠ 'i')
    (hM : c ≠ 'M') (hG : c ≠ 'G') :
    parseStripped v = .ok ((pyFloat v).getD 0) := by
  unfold parseStripped
  rw [hrev]
  simp [hm, hn, hi, hM, hG]

lemma parseStripped_of_reverse_i_nil (v : List Char) (hrev : v.reverse = ['i']) :
    parseStripped v = .ok ((pyFloat v).getD 0) := by
  unfold parseStripped
  rw [hrev]
  simp

lemma parseStripped_of_reverse_i_other (v : List Char) (c2 : Char) (r2 : List Char)
    (hrev : v.reverse = 'i' :: c2 :: r2) (hM : c2 ≠ 'M') (hG : c2 ≠ 'G') :
    parseStripped v = .ok ((pyFloat v).getD 0) := by
  unfold parseStripped
  rw [hrev]
  simp [hM, hG]

/-- C1, counterexample: the claim says `parse_resource_value` never raises,
but on `"abcm"` the `m`-suffix branch calls `float("abc")`, which raises an
uncaught `ValueError` (the `try/except` only wraps the suffix-less fallback). -/
theorem parse_raises_on_bad_suffix_operand :
    parse_resource_value "abcm" = .error () := by decide

/-- C1 (amended): `parse_resource_value(s)` terminates normally and returns a
float for every input string except one whose stripped form ends in a
recognized unit suffix with a `float`-unparseable operand (where it raises
`ValueError`); `"N/A"`, the empty string, and unparseable suffix-free strings
all yield `0.0`. -/
theorem parse_total_amended :
    (∀ s : String, badSuffixOperand s = false → ∃ q, parse_resource_value s = .ok q) ∧
    parse_resource_value "N/A" = .ok 0 ∧
    parse_resource_value "" = .ok 0 ∧
    (∀ s : String, s ≠ "N/A" → s ≠ "" → recognizedSuffix (pyStrip s.data) = false →
      pyFloat (pyStrip s.data) = none → parse_resource_value s = .ok 0) := by
  refine ⟨?_, by decide, by decide, ?_⟩
  · intro s h
    by_cases hna : s = "N/A" ∨ s = ""
    · exact ⟨0, by unfold parse_resource_value; rw [if_pos hna]⟩
    · have hps : parse_resource_value s = parseStripped (pyStrip s.data) := by
        unfold parse_resource_value
        rw [if_neg hna]
      rw [hps]
      unfold badSuffixOperand at h
      rw [if_neg hna] at h
      cases hrev : (pyStrip s.data).reverse with
      | nil => exact ⟨_, parseStripped_of_reverse_nil _ hrev⟩
      | cons c r =>
          rw [hrev] at h
          by_cases hm : c = 'm'
          · subst hm
            have h2 : (pyFloat r.reverse).isNone = false := h
            obtain ⟨q, hq⟩ := tryFloat_ok_of_not_none h2
            exact ⟨_, by rw [parseStripped_of_reverse_m _ r hrev, hq]; rfl⟩
          · by_cases hn : c = 'n'
            · subst hn
              have h2 : (pyFloat r.reverse).isNone = false := h
              obtain ⟨q, hq⟩ := tryFloat_ok_of_not_none h2
              exact ⟨_, by rw [parseStripped_of_reverse_n _ r hrev, hq]; rfl⟩
            · by_cases hi : c = 'i'
              · subst hi
                cases r with
                | nil => exact ⟨_, parseStripped_of_reverse_i_nil _ hrev⟩
                | cons c2 r2 =>
                    by_cases hM : c2 = 'M'
                    · subst hM
                      have h2 : (pyFloat r2.reverse).isNone = false := h
                      obtain ⟨q, hq⟩ := tryFloat_ok_of_not_none h2
                      exact ⟨_, by rw [parseStripped_of_reverse_Mi _ r2 hrev, hq]; rfl⟩
                    · by_cases hG : c2 = 'G'
                      · subst hG
                        have h2 : (pyFloat r2.reverse).isNone = false := by
                          have h3 : (if ('G' = 'M' ∨ ('G' = 'G' : Prop) : Bool)
                              then (pyFloat r2.reverse).isNone else false) = false := h
                          simpa using h3
                        obtain ⟨q, hq⟩ := tryFloat_ok_of_not_none h2
                        exact ⟨_, by rw [parseStripped_of_reverse_Gi _ r2 hrev, hq]; rfl⟩
                      · exact ⟨_, parseStripped_of_reverse_i_other _ c2 r2 hrev hM hG⟩
              · by_cases hM : c = 'M'
                · subst hM
                  have h2 : (pyFloat r.reverse).isNone = false := h
                  obtain ⟨q, hq⟩ := tryFloat_ok_of_not_none h2
                  exact ⟨_, by rw [parseStripped_of_reverse_M _ r hrev, hq]; rfl⟩
                · by_cases hG : c = 'G'
                  · subst hG
                    have h2 : (pyFloat r.reverse).isNone = false := by
                      have h3 : (if ('G' = 'M' ∨ ('G' = 'G' : Prop) : Bool)
                          then (pyFloat r.reverse).isNone else false) = false := by
                        simpa [hm, hn, hi] using h
                      simpa using h3
                    obtain ⟨q, hq⟩ := tryFloat_ok_of_not_none h2
                    exact ⟨_, by rw [parseStripped_of_reverse_G _ r hrev, hq]; rfl⟩
                  · exact ⟨_, parseStripped_of_reverse_other _ c r hrev hm hn hi hM hG⟩
  · intro s h1 h2 hsuf hfl
    have hna : ¬(s = "N/A" ∨ s = "") := by
      rintro (h | h)
      exacts [h1 h, h2 h]
    have hps : parse_resource_value s = parseStripped (pyStrip s.data) := by
      unfold parse_resource_value
      rw [if_neg hna]
    rw [hps]
    unfold recognizedSuffix at hsuf
    cases hrev : (pyStrip s.data).reverse with
    | nil =>
        rw [parseStripped_of_reverse_nil _ hrev, hfl]
        rfl
    | cons c r =>
        rw [hrev] at hsuf
        have hm : c ≠ 'm' := fun hc => by subst hc; exact Bool.noConfusion hsuf
        have hn : c ≠ 'n' := fun hc => by subst hc; exact Bool.noConfusion hsuf
        by_cases hi : c = 'i'
        · subst hi
          cases r with
          | nil =>
              rw [parseStripped_of_reverse_i_nil _ hrev, hfl]
              rfl
          | cons c2 r2 =>
              have hM : c2 ≠ 'M' := fun hc => by
                subst hc
                exact Bool.noConfusion hsuf
              have hG : c2 ≠ 'G' := fun hc => by
                subst hc
                exact Bool.noConfusion hsuf
              rw [parseStripped_of_reverse_i_other _ c2 r2 hrev hM hG, hfl]
              rfl
        · have hM : c ≠ 'M' := fun hc => by
            subst hc
            exact Bool.noConfusion hsuf
          have hG : c ≠ 'G' := fun hc => by
            subst hc
            exact Bool.noConfusion hsuf
          rw [parseStripped_of_reverse_other _ c r hrev hm hn hi hM hG, hfl]
          rfl

/-- C1 witness. -/
theorem parse_total_amended_witness :
    ∃ q, parse_resource_value "garbage" = .ok q :=
  parse_total_amended.1 "garbage" (by decide)

/-! Section: Claim C2 -/

/-- C2: `parse_resource_value` applies exactly the suffix conversion table —
`m` divides by `1000`, `n` by `1e9`, `Mi` multiplies by `1024^2`, `Gi` by
`1024^3`, `M` by `1e6`, `G` by `1e9`, no suffix returns the raw float,
`"N/A"`/`""` give `0.0` — and the four concrete examples hold. -/
theorem suffix_conversion_table :
    (∀ (r : List Char) (q : ℚ), pyFloat r = some q →
      parseStripped (r ++ ['m']) = .ok (q / 1000)) ∧
    (∀ (r : List Char) (q : ℚ), pyFloat r = some q →
      parseStripped (r ++ ['n']) = .ok (q / 1000000000)) ∧
    (∀ (r : List Char) (q : ℚ), pyFloat r = some q →
      parseStripped (r ++ ['M', 'i']) = .ok (q * (1024 * 1024))) ∧
    (∀ (r : List Char) (q : ℚ), pyFloat r = some q →
      parseStripped (r ++ ['G', 'i']) = .ok (q * (1024 * 1024 * 1024))) ∧
    (∀ (r : List Char) (q : ℚ), pyFloat r = some q →
      parseStripped (r ++ ['M']) = .ok (q * (1000 * 1000))) ∧
    (∀ (r : List Char) (q : ℚ), pyFloat r = some q →
      parseStripped (r ++ ['G']) = .ok (q * (1000 * 1000 * 1000))) ∧
    (∀ (v : List Char) (q : ℚ), recognizedSuffix v = false → pyFloat v = some q →
      parseStripped v = .ok q) ∧
    parse_resource_value "N/A" = .ok 0 ∧
    parse_resource_value "" = .ok 0 ∧
    parse_resource_value "500m" = .ok (1 / 2) ∧
    parse_resource_value "2Gi" = .ok (2 * 1024 * 1024 * 1024) ∧
    parse_resource_value "1G" = .ok 1000000000 ∧
    parse_resource_value "250n" = .ok (25 / 100000000) := by
  have hok : ∀ (r : List Char) (q : ℚ), pyFloat r = some q →
      tryFloat r.reverse.reverse = .ok q := by
    intro r q h
    unfold tryFloat
    rw [List.reverse_reverse, h]
  have h500 : parse_resource_value "500m" = .ok (1 / 2) := by
    rw [show ("500m" : String) = natStr 500 ++ "m" by decide, parse_natStr_m]
    norm_num
  have h2Gi : parse_resource_value "2Gi" = .ok (2 * 1024 * 1024 * 1024) := by
    rw [show ("2Gi" : String) = natStr 2 ++ "Gi" by decide, parse_natStr_Gi]
    norm_num
  have h1G : parse_resource_value "1G" = .ok 1000000000 := by
    rw [show ("1G" : String) = natStr 1 ++ "G" by decide, parse_natStr_G]
    norm_num
  have h250n : parse_resource_value "250n" = .ok (25 / 100000000) := by
    rw [show ("250n" : String) = natStr 250 ++ "n" by decide, parse_natStr_n]
    norm_num
  refine ⟨?_, ?_, ?_, ?_, ?_, ?_, ?_, by decide, by decide, h500, h2Gi, h1G, h250n⟩
  · intro r q h
    rw [parseStripped_of_reverse_m _ r.reverse (by simp), hok r q h]
    rfl
  · intro r q h
    rw [parseStripped_of_reverse_n _ r.reverse (by simp), hok r q h]
    rfl
  · intro r q h
    rw [parseStripped_of_reverse_Mi _ r.reverse (by simp), hok r q h]
    rfl
  · intro r q h
    rw [parseStripped_of_reverse_Gi _ r.reverse (by simp), hok r q h]
    rfl
  · intro r q h
    rw [parseStripped_of_reverse_M _ r.reverse (by simp), hok r q h]
    rfl
  · intro r q h
    rw [parseStripped_of_reverse_G _ r.reverse (by simp), hok r q h]
    rfl
  · intro v q hsuf h
    unfold recognizedSuffix at hsuf
    cases hrev : v.reverse with
    | nil =>
        rw [parseStripped_of_reverse_nil _ hrev, h]
        rfl
    | cons c r =>
        rw [hrev] at hsuf
        have hm : c ≠ 'm' := fun hc => by subst hc; exact Bool.noConfusion hsuf
        have hn : c ≠ 'n' := fun hc => by subst hc; exact Bool.noConfusion hsuf
        by_cases hi : c = 'i'
        · subst hi
          cases r with
          | nil =>
              rw [parseStripped_of_reverse_i_nil _ hrev, h]
              rfl
          | cons c2 r2 =>
              have hM : c2 ≠ 'M' := fun hc => by
                subst hc
                exact Bool.noConfusion hsuf
              have hG : c2 ≠ 'G' := fun hc => by
                subst hc
                exact Bool.noConfusion hsuf
              rw [parseStripped_of_reverse_i_other _ c2 r2 hrev hM hG, h]
              rfl
        · have hM : c ≠ 'M' := fun hc => by
            subst hc
            exact Bool.noConfusion hsuf
          have hG : c ≠ 'G' := fun hc => by
            subst hc
            exact Bool.noConfusion hsuf
          rw [parseStripped_of_reverse_other _ c r hrev hm hn hi hM hG, h]
          rfl

/-- C2 witness. -/
theorem suffix_conversion_table_witness :
    parseStripped (['4', '2'] ++ ['m']) = .ok ((42 : ℚ) / 1000) :=
  suffix_conversion_table.1 ['4', '2'] 42 (by
    rw [pyFloat_digits ['4', '2'] (by decide) (by decide),
      show digitsVal ['4', '2'] = 42 from by decide]
    norm_num)

/-! Section: Claim C5 -/

/-- C5: for `x ≥ 0`, parsing the formatted CPU value recovers `x` to within
one milli-core (strictly), parsing the formatted memory value recovers `x`
to within one MiB (strictly), and formatting truncates toward zero
(`pyInt` of the scaled value is its floor here). -/
theorem format_parse_roundtrip (x : ℚ) (hx : 0 ≤ x) :
    (∃ y, parse_resource_value (format_resource_value x "cpu") = .ok y ∧
      |y - x| < 0.001) ∧
    (∃ y, parse_resource_value (format_resource_value x "memory") = .ok y ∧
      |y - x| < 1024 * 1024) ∧
    pyInt (x * 1000) = ⌊x * 1000⌋ ∧
    format_resource_value x "cpu" = intStr (pyInt (x * 1000)) ++ "m" ∧
    format_resource_value x "memory" = intStr (pyInt (x / 1024 / 1024)) ++ "Mi" := by
  have h1000 : (0 : ℚ) ≤ x * 1000 := mul_nonneg hx (by norm_num)
  refine ⟨?_, ?_, by unfold pyInt; rw [if_pos h1000], ?_, ?_⟩
  · refine ⟨_, parse_format_cpu x hx, ?_⟩
    have hfl : |(⌊x * 1000⌋ : ℚ) - x * 1000| < 1 := by
      rw [abs_lt]
      constructor
      · linarith [Int.sub_one_lt_floor (x * 1000)]
      · linarith [Int.floor_le (x * 1000)]
    have heq : (⌊x * 1000⌋ : ℚ) / 1000 - x = ((⌊x * 1000⌋ : ℚ) - x * 1000) / 1000 := by
      ring
    rw [heq, abs_div]
    rw [show |(1000 : ℚ)| = 1000 by norm_num]
    rw [div_lt_iff (by norm_num)]
    calc |(⌊x * 1000⌋ : ℚ) - x * 1000| < 1 := hfl
      _ ≤ 0.001 * 1000 := by norm_num
  · refine ⟨_, parse_format_mem x hx, ?_⟩
    have hfl : |(⌊x / 1024 / 1024⌋ : ℚ) - x / 1024 / 1024| < 1 := by
      rw [abs_lt]
      constructor
      · linarith [Int.sub_one_lt_floor (x / 1024 / 1024)]
      · linarith [Int.floor_le (x / 1024 / 1024)]
    have heq : (⌊x / 1024 / 1024⌋ : ℚ) * (1024 * 1024) - x =
        ((⌊x / 1024 / 1024⌋ : ℚ) - x / 1024 / 1024) * (1024 * 1024) := by
      ring
    rw [heq, abs_mul]
    rw [show |(1024 * 1024 : ℚ)| = 1024 * 1024 by norm_num]
    calc |(⌊x / 1024 / 1024⌋ : ℚ) - x / 1024 / 1024| * (1024 * 1024)
        < 1 * (1024 * 1024) := by
          apply mul_lt_mul_of_pos_right hfl
          norm_num
      _ = 1024 * 1024 := by norm_num
  · unfold format_resource_value
    rw [if_pos rfl]
  · unfold format_resource_value
    rw [if_neg (by decide)]

/-- C5 witness. -/
theorem format_parse_roundtrip_witness :
    ∃ y, parse_resource_value (format_resource_value (1 / 2 : ℚ) "cpu") = .ok y ∧
      |y - 1 / 2| < 0.001 :=
  (format_parse_roundtrip (1 / 2) (by norm_num)).1

/-! Section: Claim C3 -/

/-- C3, counterexample: with empty series and the default 20% buffer the
formatted memory recommendation is requests `19Mi`, limits `28Mi`, whose
canonical values violate `mem_limit >= mem_request * 1.5`
(`28 MiB < 19 MiB * 1.5 = 28.5 MiB`) because formatting truncates. -/
theorem canonical_mem_ratio_violated :
    (calculate_recommendations [] [] 20).requests_memory = "19Mi" ∧
    (calculate_recommendations [] [] 20).limits_memory = "28Mi" ∧
    parse_resource_value "19Mi" = .ok (19 * 1024 * 1024) ∧
    parse_resource_value "28Mi" = .ok (28 * 1024 * 1024) ∧
    ¬((19 * 1024 * 1024 : ℚ) * 1.5 ≤ 28 * 1024 * 1024) := by
  refine ⟨by with_unfolding_all decide, by with_unfolding_all decide, ?_, ?_, by norm_num⟩
  · rw [show ("19Mi" : String) = natStr 19 ++ "Mi" by decide, parse_natStr_Mi]
    norm_num
  · rw [show ("28Mi" : String) = natStr 28 ++ "Mi" by decide, parse_natStr_Mi]
    norm_num

/-- C3 (amended): for every input and buffer in 0-100, the internal
(pre-formatting) recommendation values satisfy all four bounds
(`cpu_request >= 0.01`, `cpu_limit >= cpu_request * 1.5`,
`mem_request >= 16 MiB`, `mem_limit >= mem_request * 1.5`); the canonical
formatted-then-parsed values satisfy the two floors and all four are
strictly positive (the canonical ratio bounds only hold up to formatting
truncation, see the counterexample); empty series fall back to
mean = p95 = 0.01 core and 16 MiB. -/
theorem recommendation_bounds_amended (cpu_data mem_data : List (List ℚ))
    (buffer : ℚ) (h0 : 0 ≤ buffer) (h100 : buffer ≤ 100) :
    (0.01 ≤ (recommendationValues cpu_data mem_data buffer).1 ∧
      (recommendationValues cpu_data mem_data buffer).1 * 1.5 ≤
        (recommendationValues cpu_data mem_data buffer).2.1 ∧
      (16 * 1024 * 1024 : ℚ) ≤ (recommendationValues cpu_data mem_data buffer).2.2.1 ∧
      (recommendationValues cpu_data mem_data buffer).2.2.1 * 1.5 ≤
        (recommendationValues cpu_data mem_data buffer).2.2.2) ∧
    (∃ y, parse_resource_value
        (calculate_recommendations cpu_data mem_data buffer).requests_cpu = .ok y ∧
      0.01 ≤ y) ∧
    (∃ y, parse_resource_value
        (calculate_recommendations cpu_data mem_data buffer).requests_memory = .ok y ∧
      (16 * 1024 * 1024 : ℚ) ≤ y) ∧
    (∃ y, parse_resource_value
        (calculate_recommendations cpu_data mem_data buffer).limits_cpu = .ok y ∧
      0 < y) ∧
    (∃ y, parse_resource_value
        (calculate_recommendations cpu_data mem_data buffer).limits_memory = .ok y ∧
      0 < y) ∧
    (cpu_data.flatten = [] → cpuMeanP95 cpu_data = (0.01, 0.01)) ∧
    (mem_data.flatten = [] → memMeanP95 mem_data = (16 * 1024 * 1024, 16 * 1024 * 1024)) := by
  have hreq_cpu : (0.01 : ℚ) ≤ (recommendationValues cpu_data mem_data buffer).1 :=
    le_max_right _ _
  have hlim_cpu : (recommendationValues cpu_data mem_data buffer).1 * 1.5 ≤
      (recommendationValues cpu_data mem_data buffer).2.1 := le_max_right _ _
  have hreq_mem : (16 * 1024 * 1024 : ℚ) ≤
      (recommendationValues cpu_data mem_data buffer).2.2.1 := le_max_right _ _
  have hlim_mem : (recommendationValues cpu_data mem_data buffer).2.2.1 * 1.5 ≤
      (recommendationValues cpu_data mem_data buffer).2.2.2 := le_max_right _ _
  have hrc0 : (0 : ℚ) ≤ (recommendationValues cpu_data mem_data buffer).1 := by
    linarith
  have hlc0 : (0 : ℚ) ≤ (recommendationValues cpu_data mem_data buffer).2.1 := by
    nlinarith
  have hrm0 : (0 : ℚ) ≤ (recommendationValues cpu_data mem_data buffer).2.2.1 := by
    linarith
  have hlm0 : (0 : ℚ) ≤ (recommendationValues cpu_data mem_data buffer).2.2.2 := by
    nlinarith
  refine ⟨⟨hreq_cpu, hlim_cpu, hreq_mem, hlim_mem⟩, ?_, ?_, ?_, ?_, ?_, ?_⟩
  · refine ⟨_, parse_format_cpu _ hrc0, ?_⟩
    have h10 : (10 : ℤ) ≤ ⌊(recommendationValues cpu_data mem_data buffer).1 * 1000⌋ :=
      Int.le_floor.mpr (by push_cast; linarith)
    have h10q : (10 : ℚ) ≤
        (⌊(recommendationValues cpu_data mem_data buffer).1 * 1000⌋ : ℚ) := by
      exact_mod_cast h10
    linarith
  · refine ⟨_, parse_format_mem _ hrm0, ?_⟩
    have h16 : (16 : ℤ) ≤
        ⌊(recommendationValues cpu_data mem_data buffer).2.2.1 / 1024 / 1024⌋ :=
      Int.le_floor.mpr (by
        rw [div_div, le_div_iff (by norm_num)]
        push_cast
        linarith)
    have h16q : (16 : ℚ) ≤
        (⌊(recommendationValues cpu_data mem_data buffer).2.2.1 / 1024 / 1024⌋ : ℚ) := by
      exact_mod_cast h16
    linarith
  · refine ⟨_, parse_format_cpu _ hlc0, ?_⟩
    have h15 : (15 : ℤ) ≤ ⌊(recommendationValues cpu_data mem_data buffer).2.1 * 1000⌋ :=
      Int.le_floor.mpr (by push_cast; nlinarith)
    have h15q : (15 : ℚ) ≤
        (⌊(recommendationValues cpu_data mem_data buffer).2.1 * 1000⌋ : ℚ) := by
      exact_mod_cast h15
    linarith
  · refine ⟨_, parse_format_mem _ hlm0, ?_⟩
    have h24 : (24 : ℤ) ≤
        ⌊(recommendationValues cpu_data mem_data buffer).2.2.2 / 1024 / 1024⌋ :=
      Int.le_floor.mpr (by
        rw [div_div, le_div_iff (by norm_num)]
        push_cast
        nlinarith)
    have h24q : (24 : ℚ) ≤
        (⌊(recommendationValues cpu_data mem_data buffer).2.2.2 / 1024 / 1024⌋ : ℚ) := by
      exact_mod_cast h24
    nlinarith
  · intro h
    unfold cpuMeanP95
    rw [h]
    rfl
  · intro h
    unfold memMeanP95
    rw [h]
    rfl

/-- C3 witness. -/
theorem recommendation_bounds_amended_witness :
    (0 : ℚ) ≤ 20 ∧ (20 : ℚ) ≤ 100 ∧
    (0.01 ≤ (recommendationValues [] [] 20).1 ∧
      (recommendationValues [] [] 20).1 * 1.5 ≤ (recommendationValues [] [] 20).2.1 ∧
      (16 * 1024 * 1024 : ℚ) ≤ (recommendationValues [] [] 20).2.2.1 ∧
      (recommendationValues [] [] 20).2.2.1 * 1.5 ≤ (recommendationValues [] [] 20).2.2.2) ∧
    (∃ y, parse_resource_value (calculate_recommendations [] [] 20).requests_cpu = .ok y ∧
      0.01 ≤ y) :=
  ⟨by norm_num, by norm_num,
    (recommendation_bounds_amended [] [] 20 (by norm_num) (by norm_num)).1,
    (recommendation_bounds_amended [] [] 20 (by norm_num) (by norm_num)).2.1⟩

/-! Section: Claim C4 -/

/-- C4: on a non-empty flattened sample list, the mean is the arithmetic mean
and the p95 is the element at 0-indexed rank `floor(n * 0.95)` of the list
sorted ascending (nearest-rank); for `n = 1` the p95 equals the mean. -/
theorem mean_p95_nearest_rank (data : List (List ℚ)) (h : data.flatten ≠ []) :
    (cpuMeanP95 data).1 = data.flatten.sum / data.flatten.length ∧
    (memMeanP95 data).1 = data.flatten.sum / data.flatten.length ∧
    p95Index data.flatten.length = (⌊(data.flatten.length : ℚ) * 0.95⌋).toNat ∧
    (∃ l, data.flatten.Perm l ∧ l.Sorted (· ≤ ·) ∧
      (cpuMeanP95 data).2 = l.getD (p95Index data.flatten.length) 0 ∧
      (memMeanP95 data).2 = l.getD (p95Index data.flatten.length) 0) ∧
    (data.flatten.length = 1 → (cpuMeanP95 data).2 = (cpuMeanP95 data).1) := by
  have hempty : data.flatten.isEmpty = false := by
    rw [Bool.eq_false_iff]
    intro hd
    exact h (List.isEmpty_iff.mp hd)
  have hcpu : cpuMeanP95 data = seriesMeanP95 data.flatten := by
    simp [cpuMeanP95, hempty]
  have hmem : memMeanP95 data = seriesMeanP95 data.flatten := by
    simp [memMeanP95, hempty]
  have hidx : p95Index data.flatten.length =
      (⌊(data.flatten.length : ℚ) * 0.95⌋).toNat := by
    unfold p95Index pyInt
    rw [if_pos (mul_nonneg (Nat.cast_nonneg _) (by norm_num))]
  refine ⟨by rw [hcpu]; rfl, by rw [hmem]; rfl, hidx, ?_, ?_⟩
  · by_cases h1 : data.flatten.length > 1
    · refine ⟨pySortQ data.flatten, (List.perm_insertionSort _ _).symm,
        List.sorted_insertionSort _ _, ?_, ?_⟩
      · rw [hcpu]
        unfold seriesMeanP95
        rw [if_pos h1]
      · rw [hmem]
        unfold seriesMeanP95
        rw [if_pos h1]
    · have hlen1 : data.flatten.length = 1 := by
        have := List.length_pos.mpr h
        omega
      obtain ⟨a, ha⟩ := List.length_eq_one.mp hlen1
      have hp : (seriesMeanP95 data.flatten).2 = a := by
        unfold seriesMeanP95
        rw [if_neg h1, ha]
        rfl
      refine ⟨[a], by rw [ha], List.sorted_singleton a, ?_, ?_⟩
      · rw [hcpu, hp, hlen1, show p95Index 1 = 0 by with_unfolding_all decide]
        rfl
      · rw [hmem, hp, hlen1, show p95Index 1 = 0 by with_unfolding_all decide]
        rfl
  · intro hlen1
    obtain ⟨a, ha⟩ := List.length_eq_one.mp hlen1
    rw [hcpu]
    unfold seriesMeanP95
    rw [if_neg (by omega), ha]
    simp

/-- C4 witness. -/
theorem mean_p95_nearest_rank_witness :
    ([[ (1 : ℚ), 2 ]] : List (List ℚ)).flatten ≠ [] ∧
    (cpuMeanP95 [[(1 : ℚ), 2]]).1 =
      ([[ (1 : ℚ), 2 ]] : List (List ℚ)).flatten.sum /
        ([[ (1 : ℚ), 2 ]] : List (List ℚ)).flatten.length :=
  ⟨by decide, (mean_p95_nearest_rank [[(1 : ℚ), 2]] (by decide)).1⟩

/-! Section: Grouping infrastructure lemmas -/

/-- Membership of an entry under a key in a group list. -/
def InGroups {α : Type} (gs : List (String × List α)) (k : String) (x : α) : Prop :=
  ∃ es, (k, es) ∈ gs ∧ x ∈ es

lemma mem_addEntry_self {α : Type} (gs : List (String × List α)) (k : String) (e : α) :
    InGroups (addEntry gs k e) k e := by
  induction gs with
  | nil => exact ⟨[e], by simp [addEntry], by simp⟩
  | cons g rest ih =>
      obtain ⟨k2, es⟩ := g
      unfold addEntry
      by_cases hk : k2 = k
      · subst hk
        rw [if_pos rfl]
        exact ⟨es ++ [e], by simp, by simp⟩
      · rw [if_neg hk]
        obtain ⟨es2, hmem, hx⟩ := ih
        exact ⟨es2, List.mem_cons_of_mem _ hmem, hx⟩

lemma mem_addEntry_mono {α : Type} {gs : List (String × List α)} {k : String} {e : α}
    {k2 : String} {x : α} (h : InGroups gs k2 x) : InGroups (addEntry gs k e) k2 x := by
  induction gs with
  | nil => obtain ⟨es, hmem, _⟩ := h; simp at hmem
  | cons g rest ih =>
      obtain ⟨kg, es⟩ := g
      obtain ⟨es2, hmem, hx⟩ := h
      unfold addEntry
      by_cases hk : kg = k
      · subst hk
        rw [if_pos rfl]
        rcases List.mem_cons.mp hmem with heq | htail
        · obtain ⟨hk2, hes⟩ := Prod.mk.inj heq
          subst hk2
          subst hes
          exact ⟨es2 ++ [e], by simp, List.mem_append_left _ hx⟩
        · exact ⟨es2, List.mem_cons_of_mem _ htail, hx⟩
      · rw [if_neg hk]
        rcases List.mem_cons.mp hmem with heq | htail
        · exact ⟨es2, by rw [heq]; exact List.mem_cons_self _ _, hx⟩
        · obtain ⟨es3, hm3, hx3⟩ := ih ⟨es2, htail, hx⟩
          exact ⟨es3, List.mem_cons_of_mem _ hm3, hx3⟩

lemma mem_addEntry_inv {α : Type} {gs : List (String × List α)} {k : String} {e : α}
    {k2 : String} {x : α} (h : InGroups (addEntry gs k e) k2 x) :
    InGroups gs k2 x ∨ (k2 = k ∧ x = e) := by
  induction gs with
  | nil =>
      obtain ⟨es, hmem, hx⟩ := h
      simp only [addEntry, List.mem_singleton] at hmem
      obtain ⟨hk2, hes⟩ := Prod.mk.inj hmem
      subst hk2
      subst hes
      right
      exact ⟨rfl, List.mem_singleton.mp hx⟩
  | cons g rest ih =>
      obtain ⟨kg, es⟩ := g
      obtain ⟨es2, hmem, hx⟩ := h
      unfold addEntry at hmem
      by_cases hk : kg = k
      · subst hk
        rw [if_pos rfl] at hmem
        rcases List.mem_cons.mp hmem with heq | htail
        · obtain ⟨hk2, hes⟩ := Prod.mk.inj heq
          subst hk2
          subst hes
          rcases List.mem_append.mp hx with hin | hnew
          · exact Or.inl ⟨es, List.mem_cons_self _ _, hin⟩
          · exact Or.inr ⟨rfl, List.mem_singleton.mp hnew⟩
        · exact Or.inl ⟨es2, List.mem_cons_of_mem _ htail, hx⟩
      · rw [if_neg hk] at hmem
        rcases List.mem_cons.mp hmem with heq | htail
        · exact Or.inl ⟨es2, by rw [heq]; exact List.mem_cons_self _ _, hx⟩
        · rcases ih ⟨es2, htail, hx⟩ with ⟨es3, hm3, hx3⟩ | hnew
          · exact Or.inl ⟨es3, List.mem_cons_of_mem _ hm3, hx3⟩
          · exact Or.inr hnew

lemma bind_ok {β γ : Type} {a : Except Unit β} {g : β → Except Unit γ} {c : γ}
    (h : (a >>= g) = .ok c) : ∃ b, a = .ok b ∧ g b = .ok c := by
  cases a with
  | error e => exact absurd h (by simp [Bind.bind, Except.bind])
  | ok b => exact ⟨b, rfl, h⟩

lemma foldlM_inv {α β : Type} (f : β → α → Except Unit β) (P : β → Prop)
    (hf : ∀ b a b', f b a = .ok b' → P b → P b') :
    ∀ (l : List α) (b b' : β), l.foldlM f b = .ok b' → P b → P b' := by
  intro l
  induction l with
  | nil =>
      intro b b' h hb
      rw [List.foldlM_nil] at h
      cases h
      exact hb
  | cons a l ih =>
      intro b b' h hb
      rw [List.foldlM_cons] at h
      obtain ⟨b2, hfa, hrest⟩ := bind_ok h
      exact ih b2 b' hrest (hf b a b2 hfa hb)

lemma foldlM_ok_of_append {α β : Type} (f : β → α → Except Unit β)
    {l1 l2 : List α} {b : β} {b' : β} (h : (l1 ++ l2).foldlM f b = .ok b') :
    ∃ bm, l1.foldlM f b = .ok bm ∧ l2.foldlM f bm = .ok b' := by
  rw [List.foldlM_append] at h
  exact bind_ok h

lemma groupStepT_cases (pa : PodAnalysis) (gs gs' : List (String × List EntryT))
    (c : ContainerAnalysis) (h : groupStepT pa gs c = .ok gs') :
    (resources_are_same c.current c.recommended = .ok true ∧ gs' = gs) ∨
    (resources_are_same c.current c.recommended = .ok false ∧
      gs' = addEntry gs c.container ⟨pa.ns, pa.pod, c.container, c.current, c.recommended⟩) := by
  unfold groupStepT at h
  obtain ⟨same, hrs, hrest⟩ := bind_ok h
  cases same with
  | true =>
      left
      refine ⟨hrs, ?_⟩
      have h2 : (Except.ok gs : Except Unit (List (String × List EntryT))) =
        Except.ok gs' := hrest
      exact (Except.ok.inj h2).symm
  | false =>
      right
      refine ⟨hrs, ?_⟩
      have h2 : (Except.ok (addEntry gs c.container
          ⟨pa.ns, pa.pod, c.container, c.current, c.recommended⟩) :
        Except Unit (List (String × List EntryT))) = Except.ok gs' := hrest
      exact (Except.ok.inj h2).symm

lemma groupStepY_cases (pa : PodAnalysis) (gs gs' : List (String × List EntryY))
    (c : ContainerAnalysis) (h : groupStepY pa gs c = .ok gs') :
    (resources_are_same c.current c.recommended = .ok true ∧ gs' = gs) ∨
    (resources_are_same c.current c.recommended = .ok false ∧
      gs' = addEntry gs c.container ⟨pa.ns, c.container, c.current, c.recommended⟩) := by
  unfold groupStepY at h
  obtain ⟨same, hrs, hrest⟩ := bind_ok h
  cases same with
  | true =>
      left
      refine ⟨hrs, ?_⟩
      have h2 : (Except.ok gs : Except Unit (List (String × List EntryY))) =
        Except.ok gs' := hrest
      exact (Except.ok.inj h2).symm
  | false =>
      right
      refine ⟨hrs, ?_⟩
      have h2 : (Except.ok (addEntry gs c.container
          ⟨pa.ns, c.container, c.current, c.recommended⟩) :
        Except Unit (List (String × List EntryY))) = Except.ok gs' := hrest
      exact (Except.ok.inj h2).symm

lemma buildGroupsT_inv (recs : List PodAnalysis) (gs : List (String × List EntryT))
    (h : buildGroupsT recs = .ok gs) :
    ∀ k x, InGroups gs k x →
      resources_are_same x.current x.recommended = .ok false := by
  refine foldlM_inv _
    (fun gs => ∀ k x, InGroups gs k x →
      resources_are_same x.current x.recommended = .ok false) ?_ recs [] gs h ?_
  · intro b pa b' hstep hb
    refine foldlM_inv _
      (fun gs => ∀ k x, InGroups gs k x →
        resources_are_same x.current x.recommended = .ok false) ?_ pa.containers b b' hstep hb
    intro b2 c b2' hstep2 hb2 k x hx
    rcases groupStepT_cases pa b2 b2' c hstep2 with ⟨_, rfl⟩ | ⟨hrs, rfl⟩
    · exact hb2 k x hx
    · rcases mem_addEntry_inv hx with hin | ⟨_, rfl⟩
      · exact hb2 _ _ hin
      · exact hrs
  · intro k x hx
    obtain ⟨es, hmem, _⟩ := hx
    simp at hmem

lemma buildGroupsY_inv (recs : List PodAnalysis) (gs : List (String × List EntryY))
    (h : buildGroupsY recs = .ok gs) :
    ∀ k x, InGroups gs k x →
      resources_are_same x.current x.recommended = .ok false := by
  refine foldlM_inv _
    (fun gs => ∀ k x, InGroups gs k x →
      resources_are_same x.current x.recommended = .ok false) ?_ recs [] gs h ?_
  · intro b pa b' hstep hb
    refine foldlM_inv _
      (fun gs => ∀ k x, InGroups gs k x →
        resources_are_same x.current x.recommended = .ok false) ?_ pa.containers b b' hstep hb
    intro b2 c b2' hstep2 hb2 k x hx
    rcases groupStepY_cases pa b2 b2' c hstep2 with ⟨_, rfl⟩ | ⟨hrs, rfl⟩
    · exact hb2 k x hx
    · rcases mem_addEntry_inv hx with hin | ⟨_, rfl⟩
      · exact hb2 _ _ hin
      · exact hrs
  · intro k x hx
    obtain ⟨es, hmem, _⟩ := hx
    simp at hmem

lemma buildGroupsH_eq_buildGroupsT : buildGroupsH = buildGroupsT := rfl

lemma buildGroupsT_mem (recs : List PodAnalysis) (pa : PodAnalysis)
    (c : ContainerAnalysis) (hpa : pa ∈ recs) (hc : c ∈ pa.containers)
    (hrs : resources_are_same c.current c.recommended = .ok false)
    (gs : List (String × List EntryT)) (h : buildGroupsT recs = .ok gs) :
    InGroups gs c.container
      ⟨pa.ns, pa.pod, c.container, c.current, c.recommended⟩ := by
  have hmonoT : ∀ (p : PodAnalysis) b c2 b', groupStepT p b c2 = .ok b' →
      ∀ k0 (x0 : EntryT), InGroups b k0 x0 → InGroups b' k0 x0 := by
    intro p b c2 b' hstep k0 x0 hin
    rcases groupStepT_cases p b b' c2 hstep with ⟨_, rfl⟩ | ⟨_, rfl⟩
    · exact hin
    · exact mem_addEntry_mono hin
  obtain ⟨l1, l2, rfl⟩ := List.append_of_mem hpa
  unfold buildGroupsT at h
  obtain ⟨g1, _, hrest⟩ := foldlM_ok_of_append _ h
  rw [List.foldlM_cons] at hrest
  obtain ⟨g2, hpa2, hrest2⟩ := bind_ok hrest
  obtain ⟨m1, m2, hcs⟩ := List.append_of_mem hc
  have hpa3 : (m1 ++ c :: m2).foldlM (groupStepT pa) g1 = .ok g2 := by
    rw [← hcs]
    exact hpa2
  obtain ⟨gm, _, hmrest⟩ := foldlM_ok_of_append _ hpa3
  rw [List.foldlM_cons] at hmrest
  obtain ⟨gc, hstepc, hmrest2⟩ := bind_ok hmrest
  have hin : InGroups gc c.container
      ⟨pa.ns, pa.pod, c.container, c.current, c.recommended⟩ := by
    rcases groupStepT_cases pa gm gc c hstepc with ⟨ht, _⟩ | ⟨_, rfl⟩
    · rw [hrs] at ht
      exact absurd (Except.ok.inj ht) (by simp)
    · exact mem_addEntry_self _ _ _
  have hin2 := foldlM_inv (groupStepT pa)
    (fun gs => InGroups gs c.container
      ⟨pa.ns, pa.pod, c.container, c.current, c.recommended⟩)
    (fun b a b' hst hb => hmonoT pa b a b' hst _ _ hb) m2 gc g2 hmrest2 hin
  refine foldlM_inv _
    (fun gs => InGroups gs c.container
      ⟨pa.ns, pa.pod, c.container, c.current, c.recommended⟩)
    ?_ l2 g2 gs hrest2 hin2
  intro b p b' hst hb
  exact foldlM_inv (groupStepT p)
    (fun gs => InGroups gs c.container
      ⟨pa.ns, pa.pod, c.container, c.current, c.recommended⟩)
    (fun b2 a b2' hst2 hb2 => hmonoT p b2 a b2' hst2 _ _ hb2)
    p.containers b b' hst hb

lemma buildGroupsY_mem (recs : List PodAnalysis) (pa : PodAnalysis)
    (c : ContainerAnalysis) (hpa : pa ∈ recs) (hc : c ∈ pa.containers)
    (hrs : resources_are_same c.current c.recommended = .ok false)
    (gs : List (String × List EntryY)) (h : buildGroupsY recs = .ok gs) :
    InGroups gs c.container ⟨pa.ns, c.container, c.current, c.recommended⟩ := by
  have hmonoY : ∀ (p : PodAnalysis) b c2 b', groupStepY p b c2 = .ok b' →
      ∀ k0 (x0 : EntryY), InGroups b k0 x0 → InGroups b' k0 x0 := by
    intro p b c2 b' hstep k0 x0 hin
    rcases groupStepY_cases p b b' c2 hstep with ⟨_, rfl⟩ | ⟨_, rfl⟩
    · exact hin
    · exact mem_addEntry_mono hin
  obtain ⟨l1, l2, rfl⟩ := List.append_of_mem hpa
  unfold buildGroupsY at h
  obtain ⟨g1, _, hrest⟩ := foldlM_ok_of_append _ h
  rw [List.foldlM_cons] at hrest
  obtain ⟨g2, hpa2, hrest2⟩ := bind_ok hrest
  obtain ⟨m1, m2, hcs⟩ := List.append_of_mem hc
  have hpa3 : (m1 ++ c :: m2).foldlM (groupStepY pa) g1 = .ok g2 := by
    rw [← hcs]
    exact hpa2
  obtain ⟨gm, _, hmrest⟩ := foldlM_ok_of_append _ hpa3
  rw [List.foldlM_cons] at hmrest
  obtain ⟨gc, hstepc, hmrest2⟩ := bind_ok hmrest
  have hin : InGroups gc c.container ⟨pa.ns, c.container, c.current, c.recommended⟩ := by
    rcases groupStepY_cases pa gm gc c hstepc with ⟨ht, _⟩ | ⟨_, rfl⟩
    · rw [hrs] at ht
      exact absurd (Except.ok.inj ht) (by simp)
    · exact mem_addEntry_self _ _ _
  have hin2 := foldlM_inv (groupStepY pa)
    (fun gs => InGroups gs c.container ⟨pa.ns, c.container, c.current, c.recommended⟩)
    (fun b a b' hst hb => hmonoY pa b a b' hst _ _ hb) m2 gc g2 hmrest2 hin
  refine foldlM_inv _
    (fun gs => InGroups gs c.container ⟨pa.ns, c.container, c.current, c.recommended⟩)
    ?_ l2 g2 gs hrest2 hin2
  intro b p b' hst hb
  exact foldlM_inv (groupStepY p)
    (fun gs => InGroups gs c.container ⟨pa.ns, c.container, c.current, c.recommended⟩)
    (fun b2 a b2' hst2 hb2 => hmonoY p b2 a b2' hst2 _ _ hb2)
    p.containers b b' hst hb

lemma buildGroupsT_all_same (recs : List PodAnalysis)
    (h : ∀ pa ∈ recs, ∀ c ∈ pa.containers,
      resources_are_same c.current c.recommended = .ok true) :
    buildGroupsT recs = .ok [] := by
  have hinner : ∀ (pa : PodAnalysis) (cs : List ContainerAnalysis)
      (gs : List (String × List EntryT)),
      (∀ c ∈ cs, resources_are_same c.current c.recommended = .ok true) →
      cs.foldlM (groupStepT pa) gs = .ok gs := by
    intro pa cs
    induction cs with
    | nil => intro gs _; rfl
    | cons c cs ih =>
        intro gs hcs
        rw [List.foldlM_cons]
        have hstep : groupStepT pa gs c = .ok gs := by
          unfold groupStepT
          rw [hcs c (List.mem_cons_self c cs)]
          rfl
        rw [hstep]
        exact ih gs fun c2 hc2 => hcs c2 (List.mem_cons_of_mem c hc2)
  unfold buildGroupsT
  induction recs with
  | nil => rfl
  | cons pa recs ih =>
      simp only [List.foldlM_cons]
      have hh : pa.containers.foldlM (groupStepT pa) [] = .ok [] :=
        hinner pa pa.containers [] (h pa (List.mem_cons_self pa recs))
      rw [hh]
      exact ih fun pa2 hpa2 => h pa2 (List.mem_cons_of_mem pa hpa2)

lemma buildGroupsY_all_same (recs : List PodAnalysis)
    (h : ∀ pa ∈ recs, ∀ c ∈ pa.containers,
      resources_are_same c.current c.recommended = .ok true) :
    buildGroupsY recs = .ok [] := by
  have hinner : ∀ (pa : PodAnalysis) (cs : List ContainerAnalysis)
      (gs : List (String × List EntryY)),
      (∀ c ∈ cs, resources_are_same c.current c.recommended = .ok true) →
      cs.foldlM (groupStepY pa) gs = .ok gs := by
    intro pa cs
    induction cs with
    | nil => intro gs _; rfl
    | cons c cs ih =>
        intro gs hcs
        rw [List.foldlM_cons]
        have hstep : groupStepY pa gs c = .ok gs := by
          unfold groupStepY
          rw [hcs c (List.mem_cons_self c cs)]
          rfl
        rw [hstep]
        exact ih gs fun c2 hc2 => hcs c2 (List.mem_cons_of_mem c hc2)
  unfold buildGroupsY
  induction recs with
  | nil => rfl
  | cons pa recs ih =>
      simp only [List.foldlM_cons]
      have hh : pa.containers.foldlM (groupStepY pa) [] = .ok [] :=
        hinner pa pa.containers [] (h pa (List.mem_cons_self pa recs))
      rw [hh]
      exact ih fun pa2 hpa2 => h pa2 (List.mem_cons_of_mem pa hpa2)

/-! Section: Claim C6 -/

/-- C6: a container entry whose current and recommended bundles are the same
within tolerance (`resources_are_same` true) is filtered out before grouping
by each of the three renderers, so it appears in none of their group lists —
everything the renderers emit per container is drawn from these groups — and
if every analyzed container is filtered out this way, each renderer returns
exactly its "no recommendations" sentinel string. -/
theorem noop_suppression_and_sentinels :
    (∀ (recs : List PodAnalysis) (gs : List (String × List EntryT)),
      buildGroupsT recs = .ok gs → ∀ k x, InGroups gs k x →
        resources_are_same x.current x.recommended = .ok false) ∧
    (∀ (recs : List PodAnalysis) (gs : List (String × List EntryT)),
      buildGroupsH recs = .ok gs → ∀ k x, InGroups gs k x →
        resources_are_same x.current x.recommended = .ok false) ∧
    (∀ (recs : List PodAnalysis) (gs : List (String × List EntryY)),
      buildGroupsY recs = .ok gs → ∀ k x, InGroups gs k x →
        resources_are_same x.current x.recommended = .ok false) ∧
    (∀ recs : List PodAnalysis,
      (∀ pa ∈ recs, ∀ c ∈ pa.containers,
        resources_are_same c.current c.recommended = .ok true) →
      format_as_table recs = .ok (.sentinel tableSentinel) ∧
      format_as_yaml recs = .ok yamlSentinel ∧
      format_as_html_table recs = .ok htmlSentinel) ∧
    tableSentinel = "No recommendations - all resources are already optimized." ∧
    yamlSentinel = "# No recommendations - all resources are already optimized." ∧
    htmlSentinel = "<p>No recommendations - all resources are already optimized.</p>" := by
  refine ⟨buildGroupsT_inv, ?_, buildGroupsY_inv, ?_, rfl, rfl, rfl⟩
  · intro recs gs h
    rw [buildGroupsH_eq_buildGroupsT] at h
    exact buildGroupsT_inv recs gs h
  · intro recs hall
    have ht := buildGroupsT_all_same recs hall
    have hy := buildGroupsY_all_same recs hall
    have hh : buildGroupsH recs = .ok [] := by
      rw [buildGroupsH_eq_buildGroupsT]
      exact ht
    refine ⟨?_, ?_, ?_⟩
    · unfold format_as_table
      rw [ht]
      rfl
    · unfold format_as_yaml
      rw [hy]
      rfl
    · unfold format_as_html_table
      rw [hh]
      rfl

/-- C6 witness. -/
theorem noop_suppression_and_sentinels_witness :
    format_as_table [⟨"pod-1", "ns-1",
        [⟨"app", ⟨some "100m", some "16Mi", some "150m", some "24Mi"⟩,
          ⟨"100m", "16Mi", "150m", "24Mi", "0.080", "0.090", "14.00", "15.00"⟩⟩]⟩] =
      .ok (.sentinel tableSentinel) ∧
    format_as_yaml [⟨"pod-1", "ns-1",
        [⟨"app", ⟨some "100m", some "16Mi", some "150m", some "24Mi"⟩,
          ⟨"100m", "16Mi", "150m", "24Mi", "0.080", "0.090", "14.00", "15.00"⟩⟩]⟩] =
      .ok yamlSentinel ∧
    format_as_html_table [⟨"pod-1", "ns-1",
        [⟨"app", ⟨some "100m", some "16Mi", some "150m", some "24Mi"⟩,
          ⟨"100m", "16Mi", "150m", "24Mi", "0.080", "0.090", "14.00", "15.00"⟩⟩]⟩] =
      .ok htmlSentinel :=
  noop_suppression_and_sentinels.2.2.2.1 _ (by with_unfolding_all decide)

/-! Section: Claim C9 -/

lemma resources_are_same_eval (cur : Current) (rec2 : Recommended)
    (c1 c2 c3 c4 r1 r2 r3 r4 : ℚ)
    (h1 : parse_resource_value (orNA cur.requests_cpu) = .ok c1)
    (h2 : parse_resource_value (orNA cur.requests_memory) = .ok c2)
    (h3 : parse_resource_value (orNA cur.limits_cpu) = .ok c3)
    (h4 : parse_resource_value (orNA cur.limits_memory) = .ok c4)
    (h5 : parse_resource_value rec2.requests_cpu = .ok r1)
    (h6 : parse_resource_value rec2.requests_memory = .ok r2)
    (h7 : parse_resource_value rec2.limits_cpu = .ok r3)
    (h8 : parse_resource_value rec2.limits_memory = .ok r4) :
    resources_are_same cur rec2 =
      .ok (decide (|c1 - r1| < 0.001 ∧ |c2 - r2| < 0.001 ∧
                   |c3 - r3| < 0.001 ∧ |c4 - r4| < 0.001)) := by
  unfold resources_are_same
  rw [h1, h2, h3, h4, h5, h6, h7, h8]
  rfl

lemma parse_orNA_zero (o : Option String) (h : o = none ∨ o = some "N/A") :
    parse_resource_value (orNA o) = .ok 0 := by
  rcases h with rfl | rfl <;> decide

lemma pyJoin_data_cons2 (x y : String) (xs : List String) :
    (pyJoin "\x0a" (x :: y :: xs)).data =
      x.data ++ ('\x0a' :: (pyJoin "\x0a" (y :: xs)).data) := by
  show (x ++ "\x0a" ++ pyJoin "\x0a" (y :: xs)).data = _
  rw [String.data_append, String.data_append]
  simp

lemma getD_append_left {α : Type} : ∀ (l l' : List α) (n : ℕ) (d : α),
    n < l.length → (l ++ l').getD n d = l.getD n d := by
  intro l
  induction l with
  | nil => intro l' n d h; simp at h
  | cons a t ih =>
      intro l' n d h
      cases n with
      | zero => rfl
      | succ n =>
          show (t ++ l').getD n d = t.getD n d
          exact ih l' n d (by simpa using h)

lemma pyJoin_getD (x y : String) (xs : List String) (n : ℕ) (d : Char)
    (h : n < x.data.length) :
    (pyJoin "
" (x :: y :: xs)).data.getD n d = x.data.getD n d := by
  rw [pyJoin_data_cons2]
  exact getD_append_left _ _ _ _ h

/-- C9: a container whose current requests and limits are all missing or
`"N/A"` (each field parsing to `0.0`), with a recommendation produced by
`calculate_recommendations`, is never suppressed as a no-op (the recommended
CPU request is at least `10m = 0.01`, beyond the `0.001` tolerance), so its
entry reaches every renderer's group list and no renderer returns its
"no recommendations" sentinel. -/
theorem unset_current_never_suppressed
    (recs : List PodAnalysis) (pa : PodAnalysis) (c : ContainerAnalysis)
    (cpu mem : List (List ℚ)) (buffer : ℚ)
    (hpa : pa ∈ recs) (hc : c ∈ pa.containers)
    (h1 : c.current.requests_cpu = none ∨ c.current.requests_cpu = some "N/A")
    (h2 : c.current.requests_memory = none ∨ c.current.requests_memory = some "N/A")
    (h3 : c.current.limits_cpu = none ∨ c.current.limits_cpu = some "N/A")
    (h4 : c.current.limits_memory = none ∨ c.current.limits_memory = some "N/A")
    (hrec : c.recommended = calculate_recommendations cpu mem buffer) :
    resources_are_same c.current c.recommended = .ok false ∧
    (∀ gs, buildGroupsT recs = .ok gs → InGroups gs c.container
      (⟨pa.ns, pa.pod, c.container, c.current, c.recommended⟩ : EntryT)) ∧
    (∀ gs, buildGroupsH recs = .ok gs → InGroups gs c.container
      (⟨pa.ns, pa.pod, c.container, c.current, c.recommended⟩ : EntryT)) ∧
    (∀ gs, buildGroupsY recs = .ok gs → InGroups gs c.container
      (⟨pa.ns, c.container, c.current, c.recommended⟩ : EntryY)) ∧
    (∀ out, format_as_table recs = .ok out → ∀ s, out ≠ .sentinel s) ∧
    (∀ s, format_as_yaml recs = .ok s → s ≠ yamlSentinel) ∧
    (∀ s, format_as_html_table recs = .ok s → s ≠ htmlSentinel) := by
  have hv1 : (0.01 : ℚ) ≤ (recommendationValues cpu mem buffer).1 := le_max_right _ _
  have hv2 : (16 * 1024 * 1024 : ℚ) ≤ (recommendationValues cpu mem buffer).2.2.1 :=
    le_max_right _ _
  have hv3 : (recommendationValues cpu mem buffer).1 * 1.5 ≤
      (recommendationValues cpu mem buffer).2.1 := le_max_right _ _
  have hv4 : (recommendationValues cpu mem buffer).2.2.1 * 1.5 ≤
      (recommendationValues cpu mem buffer).2.2.2 := le_max_right _ _
  have hp5 : parse_resource_value
      (calculate_recommendations cpu mem buffer).requests_cpu =
      .ok ((⌊(recommendationValues cpu mem buffer).1 * 1000⌋ : ℚ) / 1000) :=
    parse_format_cpu _ (by linarith)
  have hp6 : parse_resource_value
      (calculate_recommendations cpu mem buffer).requests_memory =
      .ok ((⌊(recommendationValues cpu mem buffer).2.2.1 / 1024 / 1024⌋ : ℚ) *
        (1024 * 1024)) :=
    parse_format_mem _ (by linarith)
  have hp7 : parse_resource_value
      (calculate_recommendations cpu mem buffer).limits_cpu =
      .ok ((⌊(recommendationValues cpu mem buffer).2.1 * 1000⌋ : ℚ) / 1000) :=
    parse_format_cpu _ (by nlinarith)
  have hp8 : parse_resource_value
      (calculate_recommendations cpu mem buffer).limits_memory =
      .ok ((⌊(recommendationValues cpu mem buffer).2.2.2 / 1024 / 1024⌋ : ℚ) *
        (1024 * 1024)) :=
    parse_format_mem _ (by nlinarith)
  have hy1 : (0.01 : ℚ) ≤ (⌊(recommendationValues cpu mem buffer).1 * 1000⌋ : ℚ) / 1000 := by
    have h10 : (10 : ℤ) ≤ ⌊(recommendationValues cpu mem buffer).1 * 1000⌋ :=
      Int.le_floor.mpr (by push_cast; linarith)
    have h10q : (10 : ℚ) ≤ (⌊(recommendationValues cpu mem buffer).1 * 1000⌋ : ℚ) := by
      exact_mod_cast h10
    linarith
  have hrs : resources_are_same c.current c.recommended = .ok false := by
    rw [hrec, resources_are_same_eval _ _ 0 0 0 0 _ _ _ _
      (parse_orNA_zero _ h1) (parse_orNA_zero _ h2) (parse_orNA_zero _ h3)
      (parse_orNA_zero _ h4) hp5 hp6 hp7 hp8]
    have hnot : ¬(|(0 : ℚ) - (⌊(recommendationValues cpu mem buffer).1 * 1000⌋ : ℚ) / 1000|
        < 0.001 ∧
        |(0 : ℚ) - (⌊(recommendationValues cpu mem buffer).2.2.1 / 1024 / 1024⌋ : ℚ) *
          (1024 * 1024)| < 0.001 ∧
        |(0 : ℚ) - (⌊(recommendationValues cpu mem buffer).2.1 * 1000⌋ : ℚ) / 1000| < 0.001 ∧
        |(0 : ℚ) - (⌊(recommendationValues cpu mem buffer).2.2.2 / 1024 / 1024⌋ : ℚ) *
          (1024 * 1024)| < 0.001) := by
      rintro ⟨ha, -, -, -⟩
      rw [zero_sub, abs_neg, abs_of_nonneg (by linarith)] at ha
      linarith
    rw [decide_eq_false hnot]
  have hmemT : ∀ gs, buildGroupsT recs = .ok gs → InGroups gs c.container
      (⟨pa.ns, pa.pod, c.container, c.current, c.recommended⟩ : EntryT) :=
    fun gs h => buildGroupsT_mem recs pa c hpa hc hrs gs h
  have hmemY : ∀ gs, buildGroupsY recs = .ok gs → InGroups gs c.container
      (⟨pa.ns, c.container, c.current, c.recommended⟩ : EntryY) :=
    fun gs h => buildGroupsY_mem recs pa c hpa hc hrs gs h
  refine ⟨hrs, hmemT, ?_, hmemY, ?_, ?_, ?_⟩
  · intro gs h
    rw [buildGroupsH_eq_buildGroupsT] at h
    exact hmemT gs h
  · intro out hout s
    unfold format_as_table at hout
    obtain ⟨gs, hb, hrest⟩ := bind_ok hout
    have hne : gs ≠ [] := by
      rintro rfl
      obtain ⟨es, hmem, -⟩ := hmemT [] hb
      simp at hmem
    have hempty : gs.isEmpty = false := by
      rw [Bool.eq_false_iff]
      intro hd
      exact hne (List.isEmpty_iff.mp hd)
    rw [hempty] at hrest
    simp only [Bool.false_eq_true, if_false] at hrest
    obtain ⟨rows, -, hpure⟩ := bind_ok hrest
    have hout2 : out = .table rows := (Except.ok.inj hpure).symm
    rw [hout2]
    simp
  · intro s hout heq
    unfold format_as_yaml at hout
    obtain ⟨gs, hb, hrest⟩ := bind_ok hout
    have hne : gs ≠ [] := by
      rintro rfl
      obtain ⟨es, hmem, -⟩ := hmemY [] hb
      simp at hmem
    have hempty : gs.isEmpty = false := by
      rw [Bool.eq_false_iff]
      intro hd
      exact hne (List.isEmpty_iff.mp hd)
    rw [hempty] at hrest
    simp only [Bool.false_eq_true, if_false] at hrest
    obtain ⟨sections, -, hpure⟩ := bind_ok hrest
    have hs : s = pyJoin "\x0a"
        ("# Patch the deployment for each container" :: "" :: sections.flatten) :=
      (Except.ok.inj hpure).symm
    have hchar := congrArg (fun t => t.data.getD 2 ' ') heq
    rw [hs] at hchar
    simp only [] at hchar
    rw [pyJoin_getD _ _ _ _ _ (by decide)] at hchar
    exact absurd hchar (by decide)
  · intro s hout heq
    unfold format_as_html_table at hout
    obtain ⟨gs, hb, hrest⟩ := bind_ok hout
    have hne : gs ≠ [] := by
      rintro rfl
      obtain ⟨es, hmem, -⟩ := hmemT []
        (by rw [← buildGroupsH_eq_buildGroupsT]; exact hb)
      simp at hmem
    have hempty : gs.isEmpty = false := by
      rw [Bool.eq_false_iff]
      intro hd
      exact hne (List.isEmpty_iff.mp hd)
    rw [hempty] at hrest
    simp only [Bool.false_eq_true, if_false] at hrest
    obtain ⟨rows, -, hpure⟩ := bind_ok hrest
    have hs := (Except.ok.inj hpure).symm
    have hchar := congrArg (fun t => t.data.getD 1 ' ') heq
    rw [hs] at hchar
    simp only [htmlProlog, List.cons_append, List.append_assoc] at hchar
    rw [pyJoin_getD _ _ _ _ _ (by decide)] at hchar
    exact absurd hchar (by decide)

/-- C9 witness. -/
theorem unset_current_never_suppressed_witness :
    resources_are_same
        (⟨none, none, none, none⟩ : Current)
        (calculate_recommendations [] [] 20) = .ok false ∧
    (∀ s, format_as_yaml
        [⟨"pod-1", "ns-1", [⟨"app", ⟨none, none, none, none⟩,
          calculate_recommendations [] [] 20⟩]⟩] = .ok s → s ≠ yamlSentinel) := by
  have h := unset_current_never_suppressed
    [⟨"pod-1", "ns-1", [⟨"app", ⟨none, none, none, none⟩,
      calculate_recommendations [] [] 20⟩]⟩]
    ⟨"pod-1", "ns-1", [⟨"app", ⟨none, none, none, none⟩,
      calculate_recommendations [] [] 20⟩]⟩
    ⟨"app", ⟨none, none, none, none⟩, calculate_recommendations [] [] 20⟩
    [] [] 20
    (List.mem_cons_self _ _) (List.mem_cons_self _ _)
    (Or.inl rfl) (Or.inl rfl) (Or.inl rfl) (Or.inl rfl) rfl
  exact ⟨h.1, h.2.2.2.2.2.1⟩

/-! Section: Claim C10 -/

/-- C10: in the table and HTML renderers each group's displayed current
values (CPU/memory requests and limits) come solely from the first-seen
member of the group: the four current cells equal the first member's fields
verbatim, hence changing the current resources of any non-first member
leaves the rendered current columns unchanged. -/
theorem current_columns_from_first_member :
    (∀ (name : String) (e0 : EntryT) (rest : List EntryT) (r : List String),
      tableRow name (e0 :: rest) = .ok r →
      r.getD 3 "" = orNA e0.current.requests_cpu ∧
      r.getD 5 "" = orNA e0.current.limits_cpu ∧
      r.getD 7 "" = orNA e0.current.requests_memory ∧
      r.getD 9 "" = orNA e0.current.limits_memory) ∧
    (∀ (name : String) (e0 : EntryT) (rest : List EntryT) (r : List String),
      htmlRow name (e0 :: rest) = .ok r →
      r.getD 4 "" = "<td>" ++ orNA e0.current.requests_cpu ++ "</td>" ∧
      r.getD 6 "" = "<td>" ++ orNA e0.current.limits_cpu ++ "</td>" ∧
      r.getD 8 "" = "<td>" ++ orNA e0.current.requests_memory ++ "</td>" ∧
      r.getD 10 "" = "<td>" ++ orNA e0.current.limits_memory ++ "</td>") ∧
    (∀ (name : String) (e0 : EntryT) (rest rest2 : List EntryT)
        (r r2 : List String),
      tableRow name (e0 :: rest) = .ok r → tableRow name (e0 :: rest2) = .ok r2 →
      r.getD 3 "" = r2.getD 3 "" ∧ r.getD 5 "" = r2.getD 5 "" ∧
      r.getD 7 "" = r2.getD 7 "" ∧ r.getD 9 "" = r2.getD 9 "") ∧
    (∀ (name : String) (e0 : EntryT) (rest rest2 : List EntryT)
        (r r2 : List String),
      htmlRow name (e0 :: rest) = .ok r → htmlRow name (e0 :: rest2) = .ok r2 →
      r.getD 4 "" = r2.getD 4 "" ∧ r.getD 6 "" = r2.getD 6 "" ∧
      r.getD 8 "" = r2.getD 8 "" ∧ r.getD 10 "" = r2.getD 10 "") := by
  have htab : ∀ (name : String) (e0 : EntryT) (rest : List EntryT) (r : List String),
      tableRow name (e0 :: rest) = .ok r →
      r.getD 3 "" = orNA e0.current.requests_cpu ∧
      r.getD 5 "" = orNA e0.current.limits_cpu ∧
      r.getD 7 "" = orNA e0.current.requests_memory ∧
      r.getD 9 "" = orNA e0.current.limits_memory := by
    intro name e0 rest r h
    cases hagg : tableAgg (e0 :: rest) with
    | error =>
        unfold tableRow at h
        rw [hagg] at h
        exact absurd h (by simp [Bind.bind, Except.bind])
    | ok agg =>
        unfold tableRow at h
        rw [hagg] at h
        have h2 := h
        simp only [Bind.bind, Except.bind, colorizeRecommendation, USE_COLORS,
          Bool.not_false, if_true, colorize, if_false, Bool.false_eq_true,
          ite_false, ite_true] at h2
        have hr := (Except.ok.inj h2).symm
        subst hr
        exact ⟨rfl, rfl, rfl, rfl⟩
  have hhtml : ∀ (name : String) (e0 : EntryT) (rest : List EntryT) (r : List String),
      htmlRow name (e0 :: rest) = .ok r →
      r.getD 4 "" = "<td>" ++ orNA e0.current.requests_cpu ++ "</td>" ∧
      r.getD 6 "" = "<td>" ++ orNA e0.current.limits_cpu ++ "</td>" ∧
      r.getD 8 "" = "<td>" ++ orNA e0.current.requests_memory ++ "</td>" ∧
      r.getD 10 "" = "<td>" ++ orNA e0.current.limits_memory ++ "</td>" := by
    intro name e0 rest r h
    cases hagg : htmlAgg (e0 :: rest) with
    | error =>
        unfold htmlRow at h
        rw [hagg] at h
        exact absurd h (by simp [Bind.bind, Except.bind])
    | ok agg =>
        unfold htmlRow at h
        rw [hagg] at h
        obtain ⟨agg2, hagg2, h⟩ := bind_ok h
        obtain ⟨k1, hk1, h⟩ := bind_ok h
        obtain ⟨k2, hk2, h⟩ := bind_ok h
        obtain ⟨k3, hk3, h⟩ := bind_ok h
        obtain ⟨k4, hk4, h⟩ := bind_ok h
        have hr := (Except.ok.inj h).symm
        subst hr
        exact ⟨rfl, rfl, rfl, rfl⟩
  refine ⟨htab, hhtml, ?_, ?_⟩
  · intro name e0 rest rest2 r r2 h1 h2
    obtain ⟨a1, a2, a3, a4⟩ := htab name e0 rest r h1
    obtain ⟨b1, b2, b3, b4⟩ := htab name e0 rest2 r2 h2
    exact ⟨a1.trans b1.symm, a2.trans b2.symm, a3.trans b3.symm, a4.trans b4.symm⟩
  · intro name e0 rest rest2 r r2 h1 h2
    obtain ⟨a1, a2, a3, a4⟩ := hhtml name e0 rest r h1
    obtain ⟨b1, b2, b3, b4⟩ := hhtml name e0 rest2 r2 h2
    exact ⟨a1.trans b1.symm, a2.trans b2.symm, a3.trans b3.symm, a4.trans b4.symm⟩

/-- C10 witness. -/
theorem current_columns_from_first_member_witness :
    ∃ r, tableRow "app"
        [⟨"ns-1", "pod-1", "app", ⟨some "100m", some "16Mi", some "200m", some "32Mi"⟩,
          ⟨"120m", "19Mi", "180m", "28Mi", "0.100", "0.100", "16.00", "16.00"⟩⟩] = .ok r ∧
      r.getD 3 "" = orNA (some "100m") := by
  cases hrow : tableRow "app"
      [⟨"ns-1", "pod-1", "app", ⟨some "100m", some "16Mi", some "200m", some "32Mi"⟩,
        ⟨"120m", "19Mi", "180m", "28Mi", "0.100", "0.100", "16.00", "16.00"⟩⟩] with
  | error e =>
      exfalso
      cases e
      have hne : tableRow "app"
          [⟨"ns-1", "pod-1", "app", ⟨some "100m", some "16Mi", some "200m", some "32Mi"⟩,
            ⟨"120m", "19Mi", "180m", "28Mi", "0.100", "0.100", "16.00", "16.00"⟩⟩] ≠
          .error () := by
        with_unfolding_all decide
      exact hne hrow
  | ok r =>
      exact ⟨r, rfl, (current_columns_from_first_member.1 "app" _ [] r hrow).1⟩

/-! Section: Claim C7 -/

/-- Specification-side helper: the four recommended quantities of a group's
members, parsed to canonical units, as a list (table/HTML entry type). -/
def parsedRecommended (f : Recommended → String) (entries : List EntryT) :
    Except Unit (List ℚ) :=
  entries.mapM (fun e => parse_resource_value (f e.recommended))

/-- Specification-side helper for the YAML entry type. -/
def parsedRecommendedY (f : Recommended → String) (entries : List EntryY) :
    Except Unit (List ℚ) :=
  entries.mapM (fun e => parse_resource_value (f e.recommended))

lemma parsedRecommended_cons (f : Recommended → String) (c : EntryT) (t : List EntryT) :
    parsedRecommended f (c :: t) =
      parse_resource_value (f c.recommended) >>= fun x =>
        parsedRecommended f t >>= fun xs => pure (x :: xs) := by
  unfold parsedRecommended
  rw [List.mapM_cons]

lemma parsedRecommendedY_cons (f : Recommended → String) (c : EntryY) (t : List EntryY) :
    parsedRecommendedY f (c :: t) =
      parse_resource_value (f c.recommended) >>= fun x =>
        parsedRecommendedY f t >>= fun xs => pure (x :: xs) := by
  unfold parsedRecommendedY
  rw [List.mapM_cons]

lemma tableAggStep_ok (m : GroupAgg) (c : EntryT) (m2 : GroupAgg)
    (h : tableAggStep m c = .ok m2) :
    ∃ a b d e : ℚ,
      parse_resource_value c.recommended.requests_cpu = .ok a ∧
      parse_resource_value c.recommended.requests_memory = .ok b ∧
      parse_resource_value c.recommended.limits_cpu = .ok d ∧
      parse_resource_value c.recommended.limits_memory = .ok e ∧
      m2.max_cpu_req = max m.max_cpu_req a ∧
      m2.max_mem_req = max m.max_mem_req b ∧
      m2.max_cpu_lim = max m.max_cpu_lim d ∧
      m2.max_mem_lim = max m.max_mem_lim e ∧
      m2.count = m.count + 1 := by
  unfold tableAggStep at h
  obtain ⟨a, hpa, h⟩ := bind_ok h
  obtain ⟨b, hpb, h⟩ := bind_ok h
  obtain ⟨d, hpd, h⟩ := bind_ok h
  obtain ⟨e, hpe, h⟩ := bind_ok h
  obtain ⟨tc, -, h⟩ := bind_ok h
  obtain ⟨tm, -, h⟩ := bind_ok h
  have hm2 := (Except.ok.inj h).symm
  subst hm2
  exact ⟨a, b, d, e, hpa, hpb, hpd, hpe, rfl, rfl, rfl, rfl, rfl⟩

lemma yamlMaxStep_ok (m : ℚ × ℚ × ℚ × ℚ) (c : EntryY) (m2 : ℚ × ℚ × ℚ × ℚ)
    (h : yamlMaxStep m c = .ok m2) :
    ∃ a b d e : ℚ,
      parse_resource_value c.recommended.requests_cpu = .ok a ∧
      parse_resource_value c.recommended.requests_memory = .ok b ∧
      parse_resource_value c.recommended.limits_cpu = .ok d ∧
      parse_resource_value c.recommended.limits_memory = .ok e ∧
      m2 = (max m.1 a, max m.2.1 b, max m.2.2.1 d, max m.2.2.2 e) := by
  unfold yamlMaxStep at h
  obtain ⟨a, hpa, h⟩ := bind_ok h
  obtain ⟨b, hpb, h⟩ := bind_ok h
  obtain ⟨d, hpd, h⟩ := bind_ok h
  obtain ⟨e, hpe, h⟩ := bind_ok h
  exact ⟨a, b, d, e, hpa, hpb, hpd, hpe, (Except.ok.inj h).symm⟩

lemma foldl_max_is_ub (l : List ℚ) : ∀ a : ℚ,
    a ≤ l.foldl max a ∧ ∀ v ∈ l, v ≤ l.foldl max a := by
  induction l with
  | nil => intro a; exact ⟨le_rfl, by simp⟩
  | cons x t ih =>
      intro a
      rw [List.foldl_cons]
      refine ⟨(le_max_left a x).trans (ih (max a x)).1, ?_⟩
      intro v hv
      rcases List.mem_cons.mp hv with rfl | hv
      · exact (le_max_right a v).trans (ih (max a v)).1
      · exact (ih (max a x)).2 v hv

lemma foldl_max_mem (l : List ℚ) : ∀ a : ℚ,
    l.foldl max a = a ∨ l.foldl max a ∈ l := by
  induction l with
  | nil => intro a; exact Or.inl rfl
  | cons x t ih =>
      intro a
      rw [List.foldl_cons]
      rcases ih (max a x) with heq | hmem
      · rcases max_choice a x with hax | hax
        · exact Or.inl (heq.trans hax)
        · exact Or.inr (by rw [heq, hax]; exact List.mem_cons_self _ _)
      · exact Or.inr (List.mem_cons_of_mem _ hmem)

lemma tableAgg_fold_spec : ∀ (l : List EntryT) (m agg : GroupAgg),
    l.foldlM tableAggStep m = .ok agg →
    ∃ v1 v2 v3 v4 : List ℚ,
      parsedRecommended (fun r => r.requests_cpu) l = .ok v1 ∧
      parsedRecommended (fun r => r.requests_memory) l = .ok v2 ∧
      parsedRecommended (fun r => r.limits_cpu) l = .ok v3 ∧
      parsedRecommended (fun r => r.limits_memory) l = .ok v4 ∧
      agg.max_cpu_req = v1.foldl max m.max_cpu_req ∧
      agg.max_mem_req = v2.foldl max m.max_mem_req ∧
      agg.max_cpu_lim = v3.foldl max m.max_cpu_lim ∧
      agg.max_mem_lim = v4.foldl max m.max_mem_lim := by
  intro l
  induction l with
  | nil =>
      intro m agg h
      rw [List.foldlM_nil] at h
      cases h
      exact ⟨[], [], [], [], rfl, rfl, rfl, rfl, rfl, rfl, rfl, rfl⟩
  | cons c t ih =>
      intro m agg h
      rw [List.foldlM_cons] at h
      obtain ⟨m2, hstep, hrest⟩ := bind_ok h
      obtain ⟨a, b, d, e, hpa, hpb, hpd, hpe, hm1, hm2, hm3, hm4, -⟩ :=
        tableAggStep_ok m c m2 hstep
      obtain ⟨v1, v2, v3, v4, hq1, hq2, hq3, hq4, hg1, hg2, hg3, hg4⟩ := ih m2 agg hrest
      refine ⟨a :: v1, b :: v2, d :: v3, e :: v4, ?_, ?_, ?_, ?_, ?_, ?_, ?_, ?_⟩
      · rw [parsedRecommended_cons, hpa, hq1]
        rfl
      · rw [parsedRecommended_cons, hpb, hq2]
        rfl
      · rw [parsedRecommended_cons, hpd, hq3]
        rfl
      · rw [parsedRecommended_cons, hpe, hq4]
        rfl
      · rw [List.foldl_cons, ← hm1, hg1]
      · rw [List.foldl_cons, ← hm2, hg2]
      · rw [List.foldl_cons, ← hm3, hg3]
      · rw [List.foldl_cons, ← hm4, hg4]

lemma yamlMaxima_fold_spec : ∀ (l : List EntryY) (m agg : ℚ × ℚ × ℚ × ℚ),
    l.foldlM yamlMaxStep m = .ok agg →
    ∃ v1 v2 v3 v4 : List ℚ,
      parsedRecommendedY (fun r => r.requests_cpu) l = .ok v1 ∧
      parsedRecommendedY (fun r => r.requests_memory) l = .ok v2 ∧
      parsedRecommendedY (fun r => r.limits_cpu) l = .ok v3 ∧
      parsedRecommendedY (fun r => r.limits_memory) l = .ok v4 ∧
      agg.1 = v1.foldl max m.1 ∧ agg.2.1 = v2.foldl max m.2.1 ∧
      agg.2.2.1 = v3.foldl max m.2.2.1 ∧ agg.2.2.2 = v4.foldl max m.2.2.2 := by
  intro l
  induction l with
  | nil =>
      intro m agg h
      rw [List.foldlM_nil] at h
      cases h
      exact ⟨[], [], [], [], rfl, rfl, rfl, rfl, rfl, rfl, rfl, rfl⟩
  | cons c t ih =>
      intro m agg h
      rw [List.foldlM_cons] at h
      obtain ⟨m2, hstep, hrest⟩ := bind_ok h
      obtain ⟨a, b, d, e, hpa, hpb, hpd, hpe, hm⟩ := yamlMaxStep_ok m c m2 hstep
      subst hm
      obtain ⟨v1, v2, v3, v4, hq1, hq2, hq3, hq4, hg1, hg2, hg3, hg4⟩ := ih _ agg hrest
      exact ⟨a :: v1, b :: v2, d :: v3, e :: v4,
        by rw [parsedRecommendedY_cons, hpa, hq1]; rfl,
        by rw [parsedRecommendedY_cons, hpb, hq2]; rfl,
        by rw [parsedRecommendedY_cons, hpd, hq3]; rfl,
        by rw [parsedRecommendedY_cons, hpe, hq4]; rfl,
        by rw [List.foldl_cons]; exact hg1,
        by rw [List.foldl_cons]; exact hg2,
        by rw [List.foldl_cons]; exact hg3,
        by rw [List.foldl_cons]; exact hg4⟩

/-- C7, counterexample: the claim says the reported group recommendation is
the element-wise maximum over members, but the fold starts at `0.0`, so for a
(synthetic) member whose recommended CPU request is `"-5m"` (parsing to
`-0.005`) the reported maximum is `0`, not the member maximum `-0.005`. -/
theorem group_maxima_negative_counterexample :
    (tableAgg [⟨"ns-1", "pod-1", "app", ⟨none, none, none, none⟩,
        ⟨"-5m", "0Mi", "0m", "0Mi", "0.000", "0.000", "0.00", "0.00"⟩⟩]).map
      (fun agg => agg.max_cpu_req) = .ok 0 ∧
    parse_resource_value "-5m" = .ok (-(1 / 200)) ∧
    (0 : ℚ) ≠ -(1 / 200) := by
  refine ⟨by with_unfolding_all decide, by with_unfolding_all decide, by norm_num⟩

/-- C7 (amended): each renderer's per-group maxima fold computes, for each of
the four recommended quantities, `foldl max 0` over the members' parsed
values — which equals the element-wise maximum over all members whenever the
values are nonnegative (as all engine-produced quantities are), though not
for negative synthetic values (see the counterexample); the table/HTML row
and the YAML block report exactly the formatted maxima; and two same-named
containers in different namespaces with recommended CPU `100m` and `200m`
yield the reported maximum `200m`. -/
theorem group_maxima_amended :
    (∀ (entries : List EntryT) (agg : GroupAgg), tableAgg entries = .ok agg →
      ∃ v1 v2 v3 v4 : List ℚ,
        parsedRecommended (fun r => r.requests_cpu) entries = .ok v1 ∧
        parsedRecommended (fun r => r.requests_memory) entries = .ok v2 ∧
        parsedRecommended (fun r => r.limits_cpu) entries = .ok v3 ∧
        parsedRecommended (fun r => r.limits_memory) entries = .ok v4 ∧
        agg.max_cpu_req = v1.foldl max 0 ∧ agg.max_mem_req = v2.foldl max 0 ∧
        agg.max_cpu_lim = v3.foldl max 0 ∧ agg.max_mem_lim = v4.foldl max 0) ∧
    (∀ (entries : List EntryY) (m4 : ℚ × ℚ × ℚ × ℚ), yamlMaxima entries = .ok m4 →
      ∃ v1 v2 v3 v4 : List ℚ,
        parsedRecommendedY (fun r => r.requests_cpu) entries = .ok v1 ∧
        parsedRecommendedY (fun r => r.requests_memory) entries = .ok v2 ∧
        parsedRecommendedY (fun r => r.limits_cpu) entries = .ok v3 ∧
        parsedRecommendedY (fun r => r.limits_memory) entries = .ok v4 ∧
        m4.1 = v1.foldl max 0 ∧ m4.2.1 = v2.foldl max 0 ∧
        m4.2.2.1 = v3.foldl max 0 ∧ m4.2.2.2 = v4.foldl max 0) ∧
    (∀ vs : List ℚ, vs ≠ [] → (∀ v ∈ vs, 0 ≤ v) →
      vs.foldl max 0 ∈ vs ∧ ∀ v ∈ vs, v ≤ vs.foldl max 0) ∧
    (∀ (name : String) (entries : List EntryT) (agg : GroupAgg) (r : List String),
      tableAgg entries = .ok agg → tableRow name entries = .ok r →
      r.getD 4 "" = format_resource_value agg.max_cpu_req "cpu" ∧
      r.getD 6 "" = format_resource_value agg.max_cpu_lim "cpu" ∧
      r.getD 8 "" = format_resource_value agg.max_mem_req "memory" ∧
      r.getD 10 "" = format_resource_value agg.max_mem_lim "memory") ∧
    (∀ (name : String) (entries : List EntryY) (m4 : ℚ × ℚ × ℚ × ℚ)
        (lines : List String),
      yamlMaxima entries = .ok m4 → yamlGroupLines name entries = .ok lines →
      lines.getD 4 "" = yamlDumpResources (format_resource_value m4.1 "cpu")
        (format_resource_value m4.2.1 "memory") (format_resource_value m4.2.2.1 "cpu")
        (format_resource_value m4.2.2.2 "memory")) ∧
    (tableAgg [⟨"ns-a", "pod-1", "app", ⟨none, none, none, none⟩,
        ⟨"100m", "16Mi", "150m", "24Mi", "0.100", "0.100", "16.00", "16.00"⟩⟩,
      ⟨"ns-b", "pod-2", "app", ⟨none, none, none, none⟩,
        ⟨"200m", "19Mi", "300m", "28Mi", "0.200", "0.200", "16.00", "16.00"⟩⟩]).map
      (fun agg => format_resource_value agg.max_cpu_req "cpu") = .ok "200m" := by
  refine ⟨?_, ?_, ?_, ?_, ?_, by with_unfolding_all decide⟩
  · intro entries agg h
    exact tableAgg_fold_spec entries ⟨0, 0, 0, 0, 0, 0, 0⟩ agg h
  · intro entries m4 h
    exact yamlMaxima_fold_spec entries (0, 0, 0, 0) m4 h
  · intro vs hne hnn
    obtain ⟨h0le, hub⟩ := foldl_max_is_ub vs 0
    rcases foldl_max_mem vs 0 with heq | hmem
    · cases vs with
      | nil => exact absurd rfl hne
      | cons v t =>
          have hv0 : v = 0 :=
            le_antisymm (by rw [← heq]; exact hub v (List.mem_cons_self v t))
              (hnn v (List.mem_cons_self v t))
          refine ⟨?_, hub⟩
          rw [heq, ← hv0]
          exact List.mem_cons_self v t
    · exact ⟨hmem, hub⟩
  · intro name entries agg r hagg hr
    cases entries with
    | nil =>
        unfold tableRow at hr
        exact absurd hr (by simp)
    | cons e0 rest =>
        unfold tableRow at hr
        rw [hagg] at hr
        have h2 := hr
        simp only [Bind.bind, Except.bind, colorizeRecommendation, USE_COLORS,
          Bool.not_false, if_true, colorize, if_false, Bool.false_eq_true,
          ite_false, ite_true] at h2
        have hrr := (Except.ok.inj h2).symm
        subst hrr
        exact ⟨rfl, rfl, rfl, rfl⟩
  · intro name entries m4 lines hm hl
    cases entries with
    | nil =>
        unfold yamlGroupLines at hl
        exact absurd hl (by simp)
    | cons e0 rest =>
        unfold yamlGroupLines at hl
        rw [hm] at hl
        have h2 := hl
        simp only [Bind.bind, Except.bind] at h2
        have hll := (Except.ok.inj h2).symm
        subst hll
        rfl

/-- C7 witness. -/
theorem group_maxima_amended_witness :
    (0 : ℚ) ∈ [(1 : ℚ), 0] ∨
      (([(1 : ℚ), 2, 0].foldl max 0 ∈ [(1 : ℚ), 2, 0]) ∧
        ∀ v ∈ [(1 : ℚ), 2, 0], v ≤ [(1 : ℚ), 2, 0].foldl max 0) :=
  Or.inr (group_maxima_amended.2.2.1 [(1 : ℚ), 2, 0] (by simp)
    (by
      intro v hv
      simp only [List.mem_cons, List.mem_singleton, List.not_mem_nil, or_false] at hv
      rcases hv with rfl | rfl | rfl <;> norm_num))

/-! Section: Claim C8 -/

/-- Projection dropping the table-only `pod` field: a table/HTML group entry
determines the corresponding YAML group entry. -/
def projE (e : EntryT) : EntryY := ⟨e.ns, e.container, e.current, e.recommended⟩

/-- The same projection on a keyed group. -/
def projG (g : String × List EntryT) : String × List EntryY := (g.1, g.2.map projE)

lemma addEntry_map {α β : Type} (f : α → β) :
    ∀ (gs : List (String × List α)) (k : String) (e : α),
      addEntry (gs.map (fun g => (g.1, g.2.map f))) k (f e) =
        (addEntry gs k e).map (fun g => (g.1, g.2.map f)) := by
  intro gs
  induction gs with
  | nil => intro k e; rfl
  | cons g rest ih =>
      intro k e
      obtain ⟨k2, es⟩ := g
      unfold addEntry
      by_cases hk : k2 = k
      · subst hk
        rw [if_pos rfl]
        show (if k2 = k2 then _ else _) = _
        rw [if_pos rfl]
        simp
      · rw [if_neg hk]
        show (if k2 = k then _ else _) = _
        rw [if_neg hk]
        simp only [List.map_cons]
        rw [ih]

lemma groupStepY_proj (pa : PodAnalysis) (gs : List (String × List EntryT))
    (c : ContainerAnalysis) :
    groupStepY pa (gs.map projG) c = (groupStepT pa gs c).map (List.map projG) := by
  unfold groupStepY groupStepT
  cases hrs : resources_are_same c.current c.recommended with
  | error e => rfl
  | ok same =>
      cases same with
      | true => rfl
      | false =>
          show Except.ok (addEntry (gs.map projG) c.container
            ⟨pa.ns, c.container, c.current, c.recommended⟩) = _
          rw [show (⟨pa.ns, c.container, c.current, c.recommended⟩ : EntryY) =
            projE ⟨pa.ns, pa.pod, c.container, c.current, c.recommended⟩ from rfl]
          rw [show (gs.map projG) = gs.map (fun g => (g.1, g.2.map projE)) from rfl]
          rw [addEntry_map projE gs c.container]
          rfl

lemma foldlM_map_rel {α β γ : Type} (f : β → α → Except Unit β)
    (g : γ → α → Except Unit γ) (φ : β → γ)
    (hfg : ∀ b a, g (φ b) a = (f b a).map φ) :
    ∀ (l : List α) (b : β), l.foldlM g (φ b) = (l.foldlM f b).map φ := by
  intro l
  induction l with
  | nil => intro b; rfl
  | cons a t ih =>
      intro b
      rw [List.foldlM_cons, List.foldlM_cons, hfg]
      cases hfa : f b a with
      | error e => rfl
      | ok b2 => exact ih b2

lemma buildGroupsY_proj (recs : List PodAnalysis) :
    buildGroupsY recs = (buildGroupsT recs).map (List.map projG) := by
  unfold buildGroupsY buildGroupsT
  rw [show ([] : List (String × List EntryY)) =
    List.map projG ([] : List (String × List EntryT)) from rfl]
  exact foldlM_map_rel (fun gs pa => pa.containers.foldlM (groupStepT pa) gs)
    (fun gs pa => pa.containers.foldlM (groupStepY pa) gs) (List.map projG)
    (fun b pa => foldlM_map_rel (groupStepT pa) (groupStepY pa) (List.map projG)
      (fun b2 c => groupStepY_proj pa b2 c) pa.containers b) recs []

lemma groupKeyY_proj (g : String × List EntryT) : groupKeyY (projG g) = groupKeyT g := by
  obtain ⟨k, es⟩ := g
  cases es <;> rfl

lemma orderedInsert_map {α β : Type} (f : α → β) (r : α → α → Prop)
    (r2 : β → β → Prop) [DecidableRel r] [DecidableRel r2]
    (hr : ∀ a b, r2 (f a) (f b) ↔ r a b) :
    ∀ (l : List α) (x : α),
      (List.orderedInsert r x l).map f = List.orderedInsert r2 (f x) (l.map f) := by
  intro l
  induction l with
  | nil => intro x; rfl
  | cons a t ih =>
      intro x
      show (if r x a then x :: a :: t else a :: List.orderedInsert r x t).map f =
        (if r2 (f x) (f a) then f x :: f a :: t.map f
          else f a :: List.orderedInsert r2 (f x) (t.map f))
      by_cases h : r x a
      · rw [if_pos h, if_pos ((hr x a).mpr h)]
        rfl
      · rw [if_neg h, if_neg (fun h2 => h ((hr x a).mp h2))]
        simp only [List.map_cons]
        rw [ih]

lemma insertionSort_map {α β : Type} (f : α → β) (r : α → α → Prop)
    (r2 : β → β → Prop) [DecidableRel r] [DecidableRel r2]
    (hr : ∀ a b, r2 (f a) (f b) ↔ r a b) :
    ∀ l : List α, (List.insertionSort r l).map f = List.insertionSort r2 (l.map f) := by
  intro l
  induction l with
  | nil => rfl
  | cons a t ih =>
      show (List.orderedInsert r a (List.insertionSort r t)).map f = _
      rw [orderedInsert_map f r r2 hr, ih]
      rfl

lemma sortGroupsY_proj (gs : List (String × List EntryT)) :
    sortGroupsY (gs.map projG) = (sortGroupsT gs).map projG := by
  unfold sortGroupsY sortGroupsT
  exact (insertionSort_map projG _ _
    (fun a b => by rw [groupKeyY_proj, groupKeyY_proj]) gs).symm

lemma yamlMaxima_from_tableAgg : ∀ (l : List EntryT) (m agg : GroupAgg),
    l.foldlM tableAggStep m = .ok agg →
    (l.map projE).foldlM yamlMaxStep
        (m.max_cpu_req, m.max_mem_req, m.max_cpu_lim, m.max_mem_lim) =
      .ok (agg.max_cpu_req, agg.max_mem_req, agg.max_cpu_lim, agg.max_mem_lim) := by
  intro l
  induction l with
  | nil =>
      intro m agg h
      rw [List.foldlM_nil] at h
      cases h
      rfl
  | cons c t ih =>
      intro m agg h
      rw [List.foldlM_cons] at h
      obtain ⟨m2, hstep, hrest⟩ := bind_ok h
      obtain ⟨a, b, d, e, hpa, hpb, hpd, hpe, hm1, hm2, hm3, hm4, -⟩ :=
        tableAggStep_ok m c m2 hstep
      simp only [List.map_cons]
      rw [List.foldlM_cons]
      have hstepY : yamlMaxStep
          (m.max_cpu_req, m.max_mem_req, m.max_cpu_lim, m.max_mem_lim) (projE c) =
          .ok (m2.max_cpu_req, m2.max_mem_req, m2.max_cpu_lim, m2.max_mem_lim) := by
        unfold yamlMaxStep
        show (parse_resource_value c.recommended.requests_cpu >>= fun cpu_req => _) = _
        rw [hpa]
        show (parse_resource_value c.recommended.requests_memory >>= fun mem_req => _) = _
        rw [hpb]
        show (parse_resource_value c.recommended.limits_cpu >>= fun cpu_lim => _) = _
        rw [hpd]
        show (parse_resource_value c.recommended.limits_memory >>= fun mem_lim => _) = _
        rw [hpe]
        rw [hm1, hm2, hm3, hm4]
        rfl
      rw [hstepY]
      exact ih m2 agg hrest

/-- C8: the three renderers' independently re-executed grouping computations
agree: the HTML build/sort/aggregation are literally the table renderer's
(same definitions), the YAML build and sort are the projections of the table
renderer's ones (dropping the table-only `pod` field), and on every group
whose table aggregation succeeds, the YAML maxima fold yields exactly the
table aggregation's four element-wise maxima. -/
theorem renderers_agree :
    buildGroupsH = buildGroupsT ∧
    (∀ recs, buildGroupsY recs = (buildGroupsT recs).map (List.map projG)) ∧
    sortGroupsH = sortGroupsT ∧
    (∀ gs, sortGroupsY (gs.map projG) = (sortGroupsT gs).map projG) ∧
    htmlAgg = tableAgg ∧
    (∀ (l : List EntryT) (agg : GroupAgg), tableAgg l = .ok agg →
      yamlMaxima (l.map projE) =
        .ok (agg.max_cpu_req, agg.max_mem_req, agg.max_cpu_lim, agg.max_mem_lim)) :=
  ⟨rfl, buildGroupsY_proj, rfl, sortGroupsY_proj, rfl,
    fun l agg h => yamlMaxima_from_tableAgg l ⟨0, 0, 0, 0, 0, 0, 0⟩ agg h⟩

/-- C8 witness. -/
theorem renderers_agree_witness :
    yamlMaxima ([(⟨"ns-1", "pod-1", "app", ⟨none, none, none, none⟩,
        ⟨"100m", "16Mi", "150m", "24Mi", "N/A", "N/A", "N/A", "N/A"⟩⟩ :
      EntryT)].map projE) =
      .ok (1 / 10, 16777216, 3 / 20, 25165824) := by
  have hp1 : parse_resource_value "100m" = .ok (1 / 10) := by
    rw [show ("100m" : String) = natStr 100 ++ "m" by decide, parse_natStr_m]
    norm_num
  have hp2 : parse_resource_value "16Mi" = .ok 16777216 := by
    rw [show ("16Mi" : String) = natStr 16 ++ "Mi" by decide, parse_natStr_Mi]
    norm_num
  have hp3 : parse_resource_value "150m" = .ok (3 / 20) := by
    rw [show ("150m" : String) = natStr 150 ++ "m" by decide, parse_natStr_m]
    norm_num
  have hp4 : parse_resource_value "24Mi" = .ok 25165824 := by
    rw [show ("24Mi" : String) = natStr 24 ++ "Mi" by decide, parse_natStr_Mi]
    norm_num
  have hstep : tableAggStep ⟨0, 0, 0, 0, 0, 0, 0⟩
      (⟨"ns-1", "pod-1", "app", ⟨none, none, none, none⟩,
        ⟨"100m", "16Mi", "150m", "24Mi", "N/A", "N/A", "N/A", "N/A"⟩⟩ : EntryT) =
      .ok ⟨1 / 10, 16777216, 3 / 20, 25165824, 0, 0, 1⟩ := by
    unfold tableAggStep
    rw [hp1, hp2, hp3, hp4]
    show Except.ok (⟨max 0 (1 / 10), max 0 16777216, max 0 (3 / 20), max 0 25165824,
      0, 0, 0 + 1⟩ : GroupAgg) = _
    rw [max_eq_right (by norm_num), max_eq_right (by norm_num),
      max_eq_right (by norm_num), max_eq_right (by norm_num)]
  have hagg : tableAgg
      [(⟨"ns-1", "pod-1", "app", ⟨none, none, none, none⟩,
        ⟨"100m", "16Mi", "150m", "24Mi", "N/A", "N/A", "N/A", "N/A"⟩⟩ : EntryT)] =
      .ok ⟨1 / 10, 16777216, 3 / 20, 25165824, 0, 0, 1⟩ := by
    unfold tableAgg
    rw [List.foldlM_cons, hstep]
    rfl
  exact renderers_agree.2.2.2.2.2 _ _ hagg

end KubeRightsizer
